import Mathlib

/-!
# Verification of the game-generator job-orchestration backend

Shallow embedding of the Go backend of `bachdx2812/game-generator`:
the Spec Job Coordinator (`PostSpecJob` in the state-tracking variant of
`internal/handlers/spec_jobs.go`), the Code Job Coordinator
(`internal/handlers/code_jobs.go`), the State Tracker
(`updateGameSpecState`) and the control flow of the git utility
(`internal/utils`, final variant: unconditional triple-push fallback and
`CreateDevinTask`).

The database is modeled as explicit state (lists of rows); each SQL
statement of the source becomes one pure operation on that state, with
the schema constraints of `migrations/` that the handlers rely on
(primary keys, the `UNIQUE` constraint on `game_specs.spec_hash`)
modeled in the insert operations.  Outbound HTTP calls (LLM gateway,
vector search/upsert, Devin API) and the shell-level git command results
are oracles supplied in an environment record, since the handlers only
branch on their success or failure.  `uuid.New()` and `time.Now()` are
likewise environment-supplied.
-/

namespace GameGen

/-! ## JSON values

Go's `map[string]interface{}` / `[]interface{}` / `string` / `float64` /
`bool` / `nil` universe used for `spec_json`.  The numbers appearing in
this pipeline (`duration_sec` etc.) are integral, so numbers are modeled
as `Int`; Go prints integral `float64`s without a decimal point, which
this matches. -/

inductive Json where
  | null : Json
  | bool (b : Bool) : Json
  | num (n : Int) : Json
  | str (s : String) : Json
  | arr (xs : List Json) : Json
  | obj (fields : List (String × Json)) : Json

/-- A decoded Go `map[string]interface{}` (the top level of `spec_json`). -/
abbrev GoMap := List (String × Json)

/-- Go map indexing `m["k"]`: `nil` (here `Json.null`) when the key is absent. -/
def GoMap.get (m : GoMap) (k : String) : Json :=
  match m.find? (fun p => p.1 = k) with
  | some p => p.2
  | none => Json.null

/-! ## Go `encoding/json` marshaling (the stable serialization)

`json.Marshal` on a `map[string]interface{}` emits object keys in sorted
order and HTML-escapes `<`, `>`, `&` by default; this is the
deterministic serialization that `hashSpec` digests. -/

/-- One character of Go's default JSON string encoder. -/
def jsonEscapeChar (c : Char) : String :=
  if c = '"' then "\\\""
  else if c = '\\' then "\\\\"
  else if c = '\n' then "\\n"
  else if c = '\r' then "\\r"
  else if c = '\t' then "\\t"
  else if c = '<' then "\\u003c"
  else if c = '>' then "\\u003e"
  else if c = '&' then "\\u0026"
  else if c.toNat < 0x20 then
    let d := c.toNat
    let hex := fun (n : Nat) => "0123456789abcdef".toList.getD n '0'
    String.mk ['\\', 'u', '0', '0', hex (d / 16), hex (d % 16)]
  else String.singleton c

def jsonQuote (s : String) : String :=
  "\"" ++ String.join (s.toList.map jsonEscapeChar) ++ "\""

/-- Insertion by key into a key-sorted list; Go sorts map keys before
encoding, so the encoder below sorts the (already encoded) fields. -/
def insertByKey (p : String × String) : List (String × String) → List (String × String)
  | [] => [p]
  | q :: qs => if p.1 ≤ q.1 then p :: q :: qs else q :: insertByKey p qs

def sortByKey (l : List (String × String)) : List (String × String) :=
  l.foldr insertByKey []

def commaJoin : List String → String
  | [] => ""
  | [x] => x
  | x :: xs => x ++ "," ++ commaJoin xs

mutual

/-- Model of Go `json.Marshal` restricted to the value universe above. -/
def jsonMarshal : Json → String
  | .null => "null"
  | .bool true => "true"
  | .bool false => "false"
  | .num n => toString n
  | .str s => jsonQuote s
  | .arr xs => "[" ++ commaJoin (marshalElems xs) ++ "]"
  | .obj fs =>
      "\x7b" ++
        commaJoin ((sortByKey (marshalFields fs)).map
          (fun p => jsonQuote p.1 ++ ":" ++ p.2)) ++
      "\x7d"

def marshalElems : List Json → List String
  | [] => []
  | x :: xs => jsonMarshal x :: marshalElems xs

def marshalFields : List (String × Json) → List (String × String)
  | [] => []
  | (k, v) :: fs => (k, jsonMarshal v) :: marshalFields fs

end

/-- Marshaling of a top-level `map[string]interface{}` value. -/
def goMapMarshal (m : GoMap) : String :=
  jsonMarshal (Json.obj m)

/-! ## UTF-8 and SHA-256 (`crypto/sha256`)

Bytes are `Nat`s below 256; 32-bit words are `Nat`s reduced mod `2 ^ 32`. -/

def utf8Bytes (c : Char) : List Nat :=
  let n := c.toNat
  if n < 0x80 then [n]
  else if n < 0x800 then
    [0xC0 ||| (n >>> 6), 0x80 ||| (n &&& 0x3F)]
  else if n < 0x10000 then
    [0xE0 ||| (n >>> 12), 0x80 ||| ((n >>> 6) &&& 0x3F), 0x80 ||| (n &&& 0x3F)]
  else
    [0xF0 ||| (n >>> 18), 0x80 ||| ((n >>> 12) &&& 0x3F),
     0x80 ||| ((n >>> 6) &&& 0x3F), 0x80 ||| (n &&& 0x3F)]

def strBytes (s : String) : List Nat :=
  s.toList.foldr (fun c acc => utf8Bytes c ++ acc) []

def rotr32 (n x : Nat) : Nat :=
  ((x >>> n) ||| (x <<< (32 - n))) % 2 ^ 32

def add32 (a b : Nat) : Nat := (a + b) % 2 ^ 32

/-- Big-endian byte rendering of `val` on `nbytes` bytes. -/
def bytesBE (nbytes val : Nat) : List Nat :=
  (List.range nbytes).map (fun i => (val >>> (8 * (nbytes - 1 - i))) % 256)

def sha256K : List Nat :=
  [1116352408, 1899447441, 3049323471, 3921009573, 961987163, 1508970993,
   2453635748, 2870763221, 3624381080, 310598401, 607225278, 1426881987,
   1925078388, 2162078206, 2614888103, 3248222580, 3835390401, 4022224774,
   264347078, 604807628, 770255983, 1249150122, 1555081692, 1996064986,
   2554220882, 2821834349, 2952996808, 3210313671, 3336571891, 3584528711,
   113926993, 338241895, 666307205, 773529912, 1294757372, 1396182291,
   1695183700, 1986661051, 2177026350, 2456956037, 2730485921, 2820302411,
   3259730800, 3345764771, 3516065817, 3600352804, 4094571909, 275423344,
   430227734, 506948616, 659060556, 883997877, 958139571, 1322822218,
   1537002063, 1747873779, 1955562222, 2024104815, 2227730452, 2361852424,
   2428436474, 2756734187, 3204031479, 3329325298]

def sha256Init : List Nat :=
  [1779033703, 3144134277, 1013904242, 2773480762, 1359893119, 2600822924,
   528734635, 1541459225]

/-- SHA-256 padding: `0x80`, zeros to 56 mod 64, then the bit length on
8 big-endian bytes. -/
def sha256Pad (msg : List Nat) : List Nat :=
  let zeros := (64 + 56 - ((msg.length + 1) % 64)) % 64
  msg ++ [128] ++ List.replicate zeros 0 ++ bytesBE 8 (msg.length * 8)

def chunksOf (n : Nat) : List α → List (List α)
  | [] => []
  | x :: xs =>
      if _h : n = 0 then []
      else List.take n (x :: xs) :: chunksOf n (List.drop n (x :: xs))
termination_by l => l.length
decreasing_by
  simp only [List.length_drop, List.length_cons]
  omega

/-- 4 big-endian bytes to one 32-bit word. -/
def wordOfBytes (bs : List Nat) : Nat :=
  bs.foldl (fun acc b => acc * 256 + b) 0

/-- Extend 16 message words to the 64-word schedule. -/
def sha256Extend : Nat → Array Nat → Array Nat
  | 0, w => w
  | n + 1, w =>
      let i := w.size
      let w15 := w.getD (i - 15) 0
      let w2 := w.getD (i - 2) 0
      let s0 := (rotr32 7 w15) ^^^ (rotr32 18 w15) ^^^ (w15 >>> 3)
      let s1 := (rotr32 17 w2) ^^^ (rotr32 19 w2) ^^^ (w2 >>> 10)
      let next := add32 (add32 (w.getD (i - 16) 0) s0) (add32 (w.getD (i - 7) 0) s1)
      sha256Extend n (w.push next)

/-- One round of the compression function. -/
def sha256Round (st : Nat × Nat × Nat × Nat × Nat × Nat × Nat × Nat) (kw : Nat × Nat) :
    Nat × Nat × Nat × Nat × Nat × Nat × Nat × Nat :=
  let (a, b, c, d, e, f, g, h) := st
  let (k, w) := kw
  let S1 := (rotr32 6 e) ^^^ (rotr32 11 e) ^^^ (rotr32 25 e)
  let ch := (e &&& f) ^^^ ((2 ^ 32 - 1 - e) &&& g)
  let temp1 := add32 (add32 (add32 h S1) (add32 ch k)) w
  let S0 := (rotr32 2 a) ^^^ (rotr32 13 a) ^^^ (rotr32 22 a)
  let maj := (a &&& b) ^^^ (a &&& c) ^^^ (b &&& c)
  let temp2 := add32 S0 maj
  (add32 temp1 temp2, a, b, c, add32 d temp1, e, f, g)

/-- Process one 64-byte block. -/
def sha256Block (hs : List Nat) (block : List Nat) : List Nat :=
  let w0 := ((chunksOf 4 block).map wordOfBytes).toArray
  let w := sha256Extend 48 w0
  let kws := sha256K.zip w.toList
  match hs with
  | [h0, h1, h2, h3, h4, h5, h6, h7] =>
      let (a, b, c, d, e, f, g, h) :=
        kws.foldl sha256Round (h0, h1, h2, h3, h4, h5, h6, h7)
      [add32 h0 a, add32 h1 b, add32 h2 c, add32 h3 d,
       add32 h4 e, add32 h5 f, add32 h6 g, add32 h7 h]
  | other => other

/-- `crypto/sha256` `Sum256`: the 32 digest bytes of a byte string. -/
def sha256 (msg : List Nat) : List Nat :=
  let final := (chunksOf 64 (sha256Pad msg)).foldl sha256Block sha256Init
  final.foldr (fun w acc => bytesBE 4 w ++ acc) []

/-- `encoding/hex` `EncodeToString`, lowercase. -/
def hexEncode (bytes : List Nat) : String :=
  let hex := fun (n : Nat) => "0123456789abcdef".toList.getD n '0'
  String.mk (bytes.foldr (fun b acc => hex (b / 16) :: hex (b % 16) :: acc) [])

/-- `hashSpec` (`spec_jobs.go`): hex SHA-256 of the `json.Marshal`
serialization of `spec_json`.  `json.Marshal` cannot fail on values of
the `Json` universe, so the error branch of the source is not reachable
here. -/
def hashSpec (specJSON : GoMap) : String :=
  hexEncode (sha256 (strBytes (goMapMarshal specJSON)))

/-! ## Data model (`migrations/0001`…`0004`)

One structure per table.  `created_at` timestamps are abstract ticks
(`Nat`); UUIDs are opaque strings supplied by the environment. -/

/-- A `game_specs` row (with the `state` column of migration 0004,
default `'creating'`). -/
structure GameSpecRow where
  id : String
  title : String
  brief : String
  spec_markdown : String
  spec_json : GoMap
  spec_hash : String
  genre : Json
  duration_sec : Json
  state : String
  devin_session_id : Option String
  created_at : Nat

/-- A `gen_spec_jobs` row. -/
structure GenSpecJobRow where
  id : String
  status : String
  brief : String
  result_spec_id : Option String := none
  duplicate_of : List String := []
  score_similarity : Option Rat := none
  error : Option String := none

/-- A `code_jobs` row (migration 0002: `progress` defaults to 0 and
`logs` to the empty array when the insert omits them). -/
structure CodeJobRow where
  id : String
  game_spec_id : String
  game_spec : GoMap
  output_path : String
  status : String
  progress : Nat
  artifact_url : Option String
  error : Option String
  logs : List String
  created_at : Nat
  updated_at : Nat

/-- A `game_spec_states` row (migration 0004). -/
structure StateRec where
  game_spec_id : String
  state_before : Option String
  state_after : String
  detail : String

/-- The persistent store: the four tables. -/
structure DB where
  specs : List GameSpecRow
  genJobs : List GenSpecJobRow
  codeJobs : List CodeJobRow
  specStates : List StateRec

def DB.empty : DB := ⟨[], [], [], []⟩

/-! ## Single-statement database operations

Each models one SQL statement issued by the handlers, including the
constraint that can make it fail: `INSERT` fails on a primary-key
collision, and on `game_specs` also on the `UNIQUE` `spec_hash`
constraint.  (Column-level encoding concerns of the driver are outside
the model.) -/

/-- `INSERT INTO gen_spec_jobs` (primary key `id`). -/
def insertGenJob (db : DB) (row : GenSpecJobRow) : Except String DB :=
  if db.genJobs.any (fun r => r.id = row.id) then
    .error "duplicate key value violates unique constraint gen_spec_jobs_pkey"
  else
    .ok { db with genJobs := db.genJobs ++ [row] }

/-- `UPDATE gen_spec_jobs SET … WHERE id=$1`. -/
def updateGenJob (db : DB) (jobID : String) (f : GenSpecJobRow → GenSpecJobRow) : DB :=
  { db with genJobs := db.genJobs.map (fun r => if r.id = jobID then f r else r) }

/-- `INSERT INTO game_specs` (primary key `id`, `spec_hash TEXT NOT NULL
UNIQUE`).  The unique-hash rejection is the `Conflict` of the error
taxonomy. -/
def insertGameSpec (db : DB) (row : GameSpecRow) : Except String DB :=
  if db.specs.any (fun r => r.id = row.id || r.spec_hash = row.spec_hash) then
    .error "duplicate key value violates unique constraint game_specs_spec_hash_key"
  else
    .ok { db with specs := db.specs ++ [row] }

/-- `INSERT INTO code_jobs` (primary key `id`). -/
def insertCodeJob (db : DB) (row : CodeJobRow) : Except String DB :=
  if db.codeJobs.any (fun r => r.id = row.id) then
    .error "duplicate key value violates unique constraint code_jobs_pkey"
  else
    .ok { db with codeJobs := db.codeJobs ++ [row] }

/-- `UPDATE game_specs SET devin_session_id = $1 WHERE id = $2`. -/
def setDevinSession (db : DB) (specID sid : String) : DB :=
  { db with
      specs := db.specs.map (fun r =>
        if r.id = specID then { r with devin_session_id := some sid } else r) }

/-- `updateJobStatus` (`code_jobs.go`): one `UPDATE code_jobs SET
status=$1, progress=$2, logs=$3, updated_at=$4 WHERE id=$5` — the `logs`
column is overwritten with the list passed at this call. -/
def updateJobStatus (db : DB) (jobID status : String) (progress : Nat)
    (logs : List String) (now : Nat) : DB :=
  { db with
      codeJobs := db.codeJobs.map (fun r =>
        if r.id = jobID then
          { r with status := status, progress := progress, logs := logs,
                   updated_at := now }
        else r) }

/-! ## State Tracker (`updateGameSpecState`, spec_jobs handler) -/

/-- State constants of the handlers package. -/
def StateCreating : String := "creating"
def StateGitIniting : String := "git_initing"
def StateGitInited : String := "git_inited"
def StateCodeGenerating : String := "code_generating"
def StateCodeGenerated : String := "code_generated"

/-- `updateGameSpecState`: read the current state (`NotFound` error if
the spec row is gone), overwrite `state` with `newState`, and append one
`game_spec_states` row `(before, after, detail)`.  No validation of
`newState` against any edge set is performed. -/
def updateGameSpecState (db : DB) (specID newState detail : String) :
    Except String DB :=
  match db.specs.find? (fun r => r.id = specID) with
  | none => .error "failed to get current state: no rows in result set"
  | some cur =>
      let db1 : DB :=
        { db with
            specs := db.specs.map (fun r =>
              if r.id = specID then { r with state := newState } else r) }
      .ok { db1 with
              specStates := db1.specStates ++
                [⟨specID, some cur.state, newState, detail⟩] }

/-- The handlers log and ignore a `updateGameSpecState` failure and keep
going with the unchanged store. -/
def applyStateUpdate (db : DB) (specID newState detail : String) : DB :=
  match updateGameSpecState db specID newState detail with
  | .ok db1 => db1
  | .error _ => db

/-! ## The normalized fingerprint (`PostSpecJob` step 4)

`fmt.Sprintf("%s\ncontrols:%v\nmechanics:%v\nconstraints:%v", …)`.
Go's `%v` prints a missing map entry (nil interface) as `<nil>`, slices
space-separated in brackets, and maps as `map[k:v …]` with sorted keys.
The fingerprint is only ever sent to the similarity gateway, which is an
oracle here, so nothing downstream branches on this string. -/

def spaceJoin : List String → String
  | [] => ""
  | [x] => x
  | x :: xs => x ++ " " ++ spaceJoin xs

mutual

def goFmt : Json → String
  | .null => "<nil>"
  | .bool true => "true"
  | .bool false => "false"
  | .num n => toString n
  | .str s => s
  | .arr xs => "[" ++ spaceJoin (goFmtElems xs) ++ "]"
  | .obj fs =>
      "map[" ++
        spaceJoin ((sortByKey (goFmtFields fs)).map (fun p => p.1 ++ ":" ++ p.2)) ++
      "]"

def goFmtElems : List Json → List String
  | [] => []
  | x :: xs => goFmt x :: goFmtElems xs

def goFmtFields : List (String × Json) → List (String × String)
  | [] => []
  | (k, v) :: fs => (k, goFmt v) :: goFmtFields fs

end

def fingerprint (title : String) (specJSON : GoMap) : String :=
  title ++ "\ncontrols:" ++ goFmt (specJSON.get "controls") ++
  "\nmechanics:" ++ goFmt (specJSON.get "mechanics") ++
  "\nconstraints:" ++ goFmt (specJSON.get "constraints")

/-! ## Spec Job Coordinator (`PostSpecJob`, state-tracking variant)

The synchronous request handler.  The three outbound HTTP calls are
oracles carrying either the decoded payload or the already-formatted
error message (connection error, non-200 status, or decode failure all
produce the same 502 response shape in the source). -/

/-- Decoded request body of `POST /spec-jobs`. -/
structure CreateJobReq where
  brief : String
  constraints : GoMap := []

/-- `genSpecResp`: decoded reply of `POST /llm/generate-spec`. -/
structure GenSpecOut where
  title : String
  spec_markdown : String
  spec_json : GoMap

/-- One `similar` item of the `POST /vector/search` reply. -/
structure Candidate where
  spec_id : String
  title : String
  score : Rat
deriving DecidableEq

/-- `SimilarSpec`: one `duplicate_list` entry of the response. -/
structure SimilarSpec where
  id : String
  title : String
  score : Rat
deriving DecidableEq

/-- Environment of one `PostSpecJob` call: generated UUIDs, the
`TOP_K`/`SIM_THRESHOLD` overrides (parsed, when set), the three gateway
calls, and the clock. -/
structure SpecJobEnv where
  jobID : String
  specID : String
  codeJobID : String
  topKEnv : Option Nat := none
  thresholdEnv : Option Rat := none
  llm : Except String GenSpecOut
  search : Except String (List Candidate)
  upsert : Except String Unit
  now : Nat := 0

/-- `topK := 5` unless overridden by `TOP_K`. -/
def SpecJobEnv.topK (env : SpecJobEnv) : Nat := env.topKEnv.getD 5

/-- `threshold := 0.86` unless overridden by `SIM_THRESHOLD`. -/
def SpecJobEnv.threshold (env : SpecJobEnv) : Rat :=
  env.thresholdEnv.getD (86 / 100)

/-- Response of `POST /spec-jobs`, by HTTP status and payload shape. -/
inductive SpecJobResp where
  | invalidInput (msg : String) : SpecJobResp
  | serverError (msg : String) : SpecJobResp
  | upstreamError (msg : String) : SpecJobResp
  | duplicate (jobID : String) (duplicateList : List SimilarSpec) : SpecJobResp
  | completed (jobID resultSpecID : String) : SpecJobResp
deriving DecidableEq

/-- The code-generation work the handler fires into a goroutine after a
successful insert: run asynchronously, after the response returns. -/
structure AutoTrigger where
  specID : String
  codeJobID : String
  specJson : GoMap

/-- Result of the synchronous part of `PostSpecJob`: the store after the
handler's own statements, the HTTP response, and the detached work (if
spawned). -/
structure SpecJobOut where
  db : DB
  resp : SpecJobResp
  spawned : Option AutoTrigger

/-- The insert phase of `PostSpecJob` (no duplicate found or top score
below threshold): hash, insert with `state = creating`, log the initial
transition, upsert the fingerprint, mark the job COMPLETED, spawn the
auto-triggered code job. -/
def specJobInsertPhase (db : DB) (req : CreateJobReq) (env : SpecJobEnv)
    (g : GenSpecOut) : SpecJobOut :=
  let hash := hashSpec g.spec_json
  let row : GameSpecRow :=
    { id := env.specID, title := g.title, brief := req.brief,
      spec_markdown := g.spec_markdown, spec_json := g.spec_json,
      spec_hash := hash, genre := g.spec_json.get "genre",
      duration_sec := g.spec_json.get "duration_sec",
      state := StateCreating, devin_session_id := none,
      created_at := env.now }
  match insertGameSpec db row with
  | .error e => ⟨db, .serverError e, none⟩
  | .ok db1 =>
      let db2 := applyStateUpdate db1 env.specID StateCreating "Game spec created"
      match env.upsert with
      | .error e => ⟨db2, .upstreamError e, none⟩
      | .ok _ =>
          let db3 := updateGenJob db2 env.jobID (fun r =>
            { r with status := "COMPLETED", result_spec_id := some env.specID })
          ⟨db3, .completed env.jobID env.specID,
            some ⟨env.specID, env.codeJobID, g.spec_json⟩⟩

/-- The duplicate branch of `PostSpecJob`: mark the job DUPLICATE with
all candidate IDs and the top (first) score, answer 200 with the full
candidate list, insert nothing. -/
def specJobDuplicatePhase (db : DB) (env : SpecJobEnv) (c : Candidate)
    (similar : List Candidate) : SpecJobOut :=
  let db1 := updateGenJob db env.jobID (fun r =>
    { r with status := "DUPLICATE",
             duplicate_of := similar.map (fun it => it.spec_id),
             score_similarity := some c.score })
  ⟨db1, .duplicate env.jobID (similar.map (fun it => ⟨it.spec_id, it.title, it.score⟩)),
    none⟩

/-- `PostSpecJob` (spec_jobs handler, state-tracking variant): validate
the brief, record the job QUEUED then RUNNING, generate the spec, search
for near-duplicates, and branch on the duplicate decision. -/
def PostSpecJob (db : DB) (req : CreateJobReq) (env : SpecJobEnv) : SpecJobOut :=
  if req.brief = "" then ⟨db, .invalidInput "brief is required", none⟩
  else
    match insertGenJob db { id := env.jobID, status := "QUEUED", brief := req.brief } with
    | .error e => ⟨db, .serverError e, none⟩
    | .ok db1 =>
        let db2 := updateGenJob db1 env.jobID (fun r => { r with status := "RUNNING" })
        match env.llm with
        | .error e => ⟨db2, .upstreamError e, none⟩
        | .ok g =>
            match env.search with
            | .error e => ⟨db2, .upstreamError e, none⟩
            | .ok similar =>
                match similar with
                | c :: rest =>
                    if env.threshold ≤ c.score then
                      specJobDuplicatePhase db2 env c (c :: rest)
                    else
                      specJobInsertPhase db2 req env g
                | [] => specJobInsertPhase db2 req env g

/-! ## Repository Side-Effect Driver (`internal/utils`, final variant)

Only the control flow matters to the job coordinator: which shell-level
git invocations run, and how their failures compose.  Each command's
success is an oracle boolean; the configuration strings come from the
environment exactly as `NewGitRepo` reads them. -/

/-- `GitRepo` as built by `NewGitRepo` from `GIT_REPO_PATH`,
`GIT_REPO_URL`, `GIT_USERNAME`, `GIT_TOKEN`, plus the outcome of each
git command the driver can run. -/
structure GitEnv where
  repoPath : String
  repoURL : String
  username : String
  token : String
  remoteGetUrlOk : Bool := true
  revParseOk : Bool := true
  pullMainOk : Bool := true
  pullMasterOk : Bool := true
  pullBareOk : Bool := true
  addOk : Bool := true
  commitOk : Bool := true
  pushMainOk : Bool := true
  pushMasterOk : Bool := true
  pushUpstreamOk : Bool := true

/-- `IsConfigured`: path, remote URL and token all non-empty. -/
def GitEnv.isConfigured (g : GitEnv) : Bool :=
  g.repoPath ≠ "" && g.repoURL ≠ "" && g.token ≠ ""

/-- `pullFromRemote`: skip when no remote or no commits; else pull
`main`, falling back to `master`, falling back to a bare `pull`. -/
def pullFromRemote (g : GitEnv) : Except String Unit :=
  if !g.remoteGetUrlOk then .ok ()
  else if !g.revParseOk then .ok ()
  else if g.pullMainOk then .ok ()
  else if g.pullMasterOk then .ok ()
  else if g.pullBareOk then .ok ()
  else .error "failed to pull from remote"

/-- `CommitAndPush` (final variant): pull, `git add <gameID>`, commit,
then push to `main`, falling back to `master`, falling back to
`push -u origin main`; error only when all three pushes fail. -/
def commitAndPush (g : GitEnv) : Except String Unit :=
  match pullFromRemote g with
  | .error e => .error ("failed to pull latest changes: " ++ e)
  | .ok _ =>
      if !g.addOk then .error "failed to add files to git"
      else if !g.commitOk then .error "failed to commit changes"
      else if g.pushMainOk then .ok ()
      else if g.pushMasterOk then .ok ()
      else if g.pushUpstreamOk then .ok ()
      else .error "failed to push to remote"

/-- `strings.TrimSuffix(url, ".git")` (suffix test phrased over the
character list so it evaluates structurally). -/
def trimGitSuffix (s : String) : String :=
  if ".git".data.isSuffixOf s.data then s.dropRight 4 else s

/-- `strings.TrimPrefix(sessionID, "devin-")` (prefix test phrased over
the character list so it evaluates structurally). -/
def dropDevinMarker (s : String) : String :=
  if "devin-".data.isPrefixOf s.data then s.drop 6 else s

/-- Environment of one worker run: the git driver, the Devin API key
presence, the Devin sessions call (raw `session_id` on success, the
formatted error otherwise), the folder-creation outcome, and the clock. -/
structure WorkerEnv where
  git : GitEnv
  devinKeySet : Bool := true
  devinHttp : Except String String
  createFolder : Except String String
  now : Nat := 0

/-- `CreateDevinTask` (final variant): require `GIT_REPO_URL` and
`DEVIN_API_KEY`, POST the fixed prompt to the sessions endpoint, and
strip a literal `devin-` marker off the returned session ID. -/
def createDevinTask (env : WorkerEnv) : Except String String :=
  if trimGitSuffix env.git.repoURL = "" then
    .error "GIT_REPO_URL environment variable not set"
  else if !env.devinKeySet then
    .error "DEVIN_API_KEY environment variable is required"
  else
    match env.devinHttp with
    | .error e => .error e
    | .ok raw => .ok (dropDevinMarker raw)

/-! ## Code Job Coordinator (`code_jobs.go`, current variant) -/

/-- Decoded request body of `POST /code-jobs` (also the argument record
handed to the detached worker). -/
structure CreateCodeJobReq where
  gameSpecID : String
  gameSpec : GoMap
  outputPath : String := ""

/-- One observable `updateJobStatus` write: status, progress and the log
snapshot passed at that call site. -/
structure JobUpdate where
  status : String
  progress : Nat
  logs : List String
deriving DecidableEq

/-- Worker tail after a successful push (`code_jobs.go` steps 3–5):
advance the spec to `git_inited`, then `code_generating`, create the
Devin task (failure ⇒ job failed at 85), persist the session ID
best-effort, and complete at 100.  `t` is the trace of the preceding
`updateJobStatus` writes. -/
def workerDevinPhase (db4 : DB) (jobID specID : String) (env : WorkerEnv)
    (t : List JobUpdate) : DB × List JobUpdate :=
  let db5 := applyStateUpdate db4 specID StateGitInited
    "Git repository initialized and README.md pushed"
  let db6 := updateJobStatus db5 jobID "processing" 85
    ["Git operations completed, starting Devin code generation"] env.now
  let t5 := t ++
    [⟨"processing", 85, ["Git operations completed, starting Devin code generation"]⟩]
  let db7 := applyStateUpdate db6 specID StateCodeGenerating
    "Starting Devin code generation"
  match createDevinTask env with
  | .error e =>
      (updateJobStatus db7 jobID "failed" 85
         ["Failed to create Devin task: " ++ e] env.now,
       t5 ++ [⟨"failed", 85, ["Failed to create Devin task: " ++ e]⟩])
  | .ok sessionID =>
      let db8 := setDevinSession db7 specID sessionID
      let db9 := updateJobStatus db8 jobID "processing" 90
        ["Devin task created with session ID: " ++ sessionID] env.now
      let t6 := t5 ++
        [⟨"processing", 90, ["Devin task created with session ID: " ++ sessionID]⟩]
      (updateJobStatus db9 jobID "completed" 100
         ["Git repository setup completed and Devin task created",
          "Devin session: https://app.devin.ai/sessions/" ++ sessionID,
          "Monitoring Devin progress for completion..."] env.now,
       t6 ++
         [⟨"completed", 100,
           ["Git repository setup completed and Devin task created",
            "Devin session: https://app.devin.ai/sessions/" ++ sessionID,
            "Monitoring Devin progress for completion..."]⟩])

/-- Worker commit-and-push step: advance to 80, run
`gitRepo.CommitAndPush`, fail the job at 0 on error. -/
def workerPushPhase (db3 : DB) (jobID specID : String) (env : WorkerEnv)
    (t : List JobUpdate) : DB × List JobUpdate :=
  let db4 := updateJobStatus db3 jobID "processing" 80
    ["Committing and pushing to repository"] env.now
  let t4 := t ++ [⟨"processing", 80, ["Committing and pushing to repository"]⟩]
  match commitAndPush env.git with
  | .error e =>
      (updateJobStatus db4 jobID "failed" 0
         ["Failed to commit and push: " ++ e] env.now,
       t4 ++ [⟨"failed", 0, ["Failed to commit and push: " ++ e]⟩])
  | .ok _ => workerDevinPhase db4 jobID specID env t4

/-- Worker folder step: advance to 60, run `CreateGameFolder`, fail the
job at 0 on error. -/
def workerFolderPhase (db2 : DB) (jobID specID : String) (env : WorkerEnv)
    (t : List JobUpdate) : DB × List JobUpdate :=
  let db3 := updateJobStatus db2 jobID "processing" 60
    ["Creating game folder with README.md"] env.now
  let t3 := t ++ [⟨"processing", 60, ["Creating game folder with README.md"]⟩]
  match env.createFolder with
  | .error e =>
      (updateJobStatus db3 jobID "failed" 0
         ["Failed to create game folder: " ++ e] env.now,
       t3 ++ [⟨"failed", 0, ["Failed to create game folder: " ++ e]⟩])
  | .ok _gamePath => workerPushPhase db3 jobID specID env t3

/-- `processCodeGeneration` (current `code_jobs.go`): the detached
worker, as the composition of its phases above.  It re-fetches the spec
row from the store (the JSON-decode failure branch of the source is
unreachable here because the store holds decoded values), requires the
git driver to be configured, and then runs folder creation, commit/push
and Devin delegation.  Returns the store after all writes and the
ordered trace of `updateJobStatus` writes. -/
def processCodeGeneration (db : DB) (jobID : String) (req : CreateCodeJobReq)
    (env : WorkerEnv) : DB × List JobUpdate :=
  let db1 := updateJobStatus db jobID "processing" 20
    ["Starting automated git folder generation"] env.now
  let t1 : List JobUpdate :=
    [⟨"processing", 20, ["Starting automated git folder generation"]⟩]
  match db1.specs.find? (fun r => r.id = req.gameSpecID) with
  | none =>
      (updateJobStatus db1 jobID "failed" 0
         ["Failed to retrieve game spec: no rows in result set"] env.now,
       t1 ++ [⟨"failed", 0, ["Failed to retrieve game spec: no rows in result set"]⟩])
  | some _spec =>
      let db2 := updateJobStatus db1 jobID "processing" 40
        ["Game spec retrieved successfully"] env.now
      let t2 := t1 ++ [⟨"processing", 40, ["Game spec retrieved successfully"]⟩]
      if !env.git.isConfigured then
        (updateJobStatus db2 jobID "failed" 0 ["Git repository not configured"] env.now,
         t2 ++ [⟨"failed", 0, ["Git repository not configured"]⟩])
      else
        workerFolderPhase db2 jobID req.gameSpecID env t2

/-- Response of `POST /code-jobs`. -/
inductive CodeJobResp where
  | invalidInput (msg : String) : CodeJobResp
  | serverError (msg : String) : CodeJobResp
  | queued (jobID : String) : CodeJobResp
deriving DecidableEq

/-- A worker launch the handler detaches (`go processCodeGeneration`). -/
structure PendingWorker where
  jobID : String
  req : CreateCodeJobReq

/-- Environment of one `PostCodeJob` call: generated job UUID and clock. -/
structure CodeJobEnv where
  jobID : String
  now : Nat := 0

/-- `PostCodeJob`: reject with 400 only when both `game_spec_id` and the
inline `game_spec` are empty; default `output_path` to `/tmp`; insert
the job row `queued` (progress 0 and empty logs by column default);
best-effort log the `creating` state; detach the worker. -/
def PostCodeJob (db : DB) (req : CreateCodeJobReq) (env : CodeJobEnv) :
    DB × CodeJobResp × Option PendingWorker :=
  if req.gameSpecID = "" ∧ req.gameSpec.length = 0 then
    (db, .invalidInput "Either game_spec_id or game_spec must be provided", none)
  else
    let req1 := if req.outputPath = "" then { req with outputPath := "/tmp" } else req
    let row : CodeJobRow :=
      { id := env.jobID, game_spec_id := req1.gameSpecID, game_spec := req1.gameSpec,
        output_path := req1.outputPath, status := "queued", progress := 0,
        artifact_url := none, error := none, logs := [],
        created_at := env.now, updated_at := env.now }
    match insertCodeJob db row with
    | .error _ => (db, .serverError "Failed to create job", none)
    | .ok db1 =>
        let db2 := applyStateUpdate db1 req1.gameSpecID StateCreating
          "Code generation job created"
        (db2, .queued env.jobID, some ⟨env.jobID, req1⟩)

/-- The goroutine body of the auto-trigger in `PostSpecJob`: log the
`git_initing` transition, insert the code-job row (output path = the git
repo path), and detach the worker; an insert failure is only logged. -/
def runAutoTrigger (db : DB) (t : AutoTrigger) (repoPath : String) (now : Nat) :
    DB × Option PendingWorker :=
  let db1 := applyStateUpdate db t.specID StateGitIniting
    "Starting git repository initialization"
  let row : CodeJobRow :=
    { id := t.codeJobID, game_spec_id := t.specID, game_spec := t.specJson,
      output_path := repoPath, status := "queued", progress := 0,
      artifact_url := none, error := none, logs := [],
      created_at := now, updated_at := now }
  match insertCodeJob db1 row with
  | .ok db2 => (db2, some ⟨t.codeJobID, ⟨t.specID, t.specJson, repoPath⟩⟩)
  | .error _ => (db1, none)

/-- Result of `GET /specs/:id/code-job`. -/
inductive CodeJobLookup where
  | badRequest : CodeJobLookup
  | notStarted : CodeJobLookup
  | found (job : CodeJobRow) : CodeJobLookup

/-- `ORDER BY created_at DESC LIMIT 1` over a result set: an element
with maximal `created_at` (the first such, matching a stable scan). -/
def latestByCreatedAt (jobs : List CodeJobRow) : Option CodeJobRow :=
  jobs.foldl (fun acc j =>
    match acc with
    | none => some j
    | some b => if b.created_at < j.created_at then some j else acc) none

/-- `GetCodeJobBySpecID`: the most recently created job referencing the
spec, or the `not_started` sentinel when the query returns no row. -/
def GetCodeJobBySpecID (db : DB) (specID : String) : CodeJobLookup :=
  if specID = "" then .badRequest
  else
    match latestByCreatedAt (db.codeJobs.filter (fun j => j.game_spec_id = specID)) with
    | none => .notStarted
    | some j => .found j

/-- A sequence of `updateJobStatus` calls against one job, in order. -/
def applyJobUpdates (db : DB) (jobID : String)
    (updates : List (String × Nat × List String × Nat)) : DB :=
  updates.foldl (fun db u => updateJobStatus db jobID u.1 u.2.1 u.2.2.1 u.2.2.2) db

/-! ## Concrete stores, environments and trace entries used by the
witnesses and counterexamples -/

/-- A concrete generated spec used by the witnesses. -/
def gW : GenSpecOut :=
  { title := "Dodge Rush", spec_markdown := "# Dodge Rush",
    spec_json := [("genre", Json.str "arcade"), ("duration_sec", Json.num 60),
                  ("controls", Json.arr [Json.str "tap"])] }

/-- Environment of the C1 witness call: the gateway reports one
candidate scoring 0.93 against the default 0.86 threshold. -/
def envDupW : SpecJobEnv :=
  { jobID := "job-1", specID := "spec-1", codeJobID := "code-1",
    llm := .ok gW, search := .ok [⟨"X", "Dodge Run", 93 / 100⟩],
    upsert := .ok () }

/-- Environment of the C4 witness call: the gateway reports no
candidates at all. -/
def envInsW : SpecJobEnv :=
  { jobID := "job-2", specID := "spec-2", codeJobID := "code-2",
    llm := .ok gW, search := .ok [], upsert := .ok () }

/-- The dedup-relevant fields of a spec row. -/
def specPair (r : GameSpecRow) : String × GoMap := (r.spec_hash, r.spec_json)

/-- The spec-store invariant backing hash dedup. -/
def SpecsInv (db : DB) : Prop :=
  (db.specs.map (fun r => r.spec_hash)).Pairwise (· ≠ ·) ∧
  ∀ r ∈ db.specs, r.spec_hash = hashSpec r.spec_json

/-- The states reachable from the empty store through `CreateSpecJob`
calls, the code-job auto-trigger and worker runs they detach, and direct
`SubmitCodeJob` calls. -/
inductive Reachable : DB → Prop where
  | empty : Reachable DB.empty
  | specJob {db : DB} (req : CreateJobReq) (env : SpecJobEnv) :
      Reachable db → Reachable (PostSpecJob db req env).db
  | autoTrigger {db : DB} (t : AutoTrigger) (repoPath : String) (now : Nat) :
      Reachable db → Reachable (runAutoTrigger db t repoPath now).1
  | worker {db : DB} (jobID : String) (wreq : CreateCodeJobReq) (env : WorkerEnv) :
      Reachable db → Reachable (processCodeGeneration db jobID wreq env).1
  | codeJob {db : DB} (req : CreateCodeJobReq) (env : CodeJobEnv) :
      Reachable db → Reachable (PostCodeJob db req env).1

/-- The concrete `game_specs` row the first witness call inserts. -/
def rowW : GameSpecRow :=
  { id := "spec-2", title := "Dodge Rush", brief := "arcade 60s mobile puzzle game",
    spec_markdown := "# Dodge Rush", spec_json := gW.spec_json,
    spec_hash := hashSpec gW.spec_json, genre := gW.spec_json.get "genre",
    duration_sec := gW.spec_json.get "duration_sec", state := StateCreating,
    devin_session_id := none, created_at := 0 }

/-- The store after one successful `CreateSpecJob` (the C4 witness call). -/
def dbOneSpec : DB :=
  (PostSpecJob DB.empty { brief := "arcade 60s mobile puzzle game" } envInsW).db

/-- Second submission of the identical `spec_json`, similarity bypassed. -/
def envConfW : SpecJobEnv :=
  { jobID := "job-3", specID := "spec-3", codeJobID := "code-3",
    llm := .ok gW, search := .ok [], upsert := .ok () }

/-- Three code jobs of one spec (created at ticks 1, 5, 3) and one of
another spec, for the C7 witness. -/
def cjRow (i : String) (spec : String) (t : Nat) : CodeJobRow :=
  { id := i, game_spec_id := spec, game_spec := [], output_path := "/tmp",
    status := "queued", progress := 0, artifact_url := none, error := none,
    logs := [], created_at := t, updated_at := t }

def dbManyJobs : DB :=
  { specs := [], genJobs := [],
    codeJobs := [cjRow "cj-a" "spec-9" 1, cjRow "cj-b" "spec-9" 5,
                 cjRow "cj-c" "spec-9" 3, cjRow "cj-d" "other" 9],
    specStates := [] }

/-- A stored code job that already carries log lines, for the C8 witness. -/
def dbJobWithLogs : DB :=
  { specs := [], genJobs := [],
    codeJobs := [{ id := "cj-1", game_spec_id := "spec-2", game_spec := [],
                   output_path := "/tmp", status := "processing", progress := 20,
                   artifact_url := none, error := none,
                   logs := ["line from an earlier update"],
                   created_at := 1, updated_at := 1 }],
    specStates := [] }

/-- The `updateJobStatus` writes of a worker run, by checkpoint. -/
def u20 : JobUpdate := ⟨"processing", 20, ["Starting automated git folder generation"]⟩

def u40 : JobUpdate := ⟨"processing", 40, ["Game spec retrieved successfully"]⟩

def u60 : JobUpdate := ⟨"processing", 60, ["Creating game folder with README.md"]⟩

def u80 : JobUpdate := ⟨"processing", 80, ["Committing and pushing to repository"]⟩

def u85 : JobUpdate :=
  ⟨"processing", 85, ["Git operations completed, starting Devin code generation"]⟩

def u90 (s : String) : JobUpdate :=
  ⟨"processing", 90, ["Devin task created with session ID: " ++ s]⟩

def u100 (s : String) : JobUpdate :=
  ⟨"completed", 100,
   ["Git repository setup completed and Devin task created",
    "Devin session: https://app.devin.ai/sessions/" ++ s,
    "Monitoring Devin progress for completion..."]⟩

def uFail (p : Nat) (msg : String) : JobUpdate := ⟨"failed", p, [msg]⟩

/-- A configured git driver whose local commit succeeds while `git push
origin main`, `git push origin master` and `git push -u origin main` all
fail (no remote reachable for the pull check either). -/
def gitPushFailW : GitEnv :=
  { repoPath := "/srv/games", repoURL := "https://example.com/games.git",
    username := "bot", token := "tok", remoteGetUrlOk := false,
    pushMainOk := false, pushMasterOk := false, pushUpstreamOk := false }

def envPushFailW : WorkerEnv :=
  { git := gitPushFailW, devinHttp := .ok "devin-abc123",
    createFolder := .ok "/srv/games/spec-2" }

/-- A store holding the spec row and the queued job row the worker owns. -/
def dbWorkerW : DB :=
  { specs := [rowW], genJobs := [], codeJobs := [cjRow "cj-1" "spec-2" 1],
    specStates := [] }

def reqWorkerW : CreateCodeJobReq :=
  { gameSpecID := "spec-2", gameSpec := [], outputPath := "/srv/games" }

/-- A fully working git driver (pull skipped: fresh clone, no remote
check), used with a failing Devin API and with a working one. -/
def gitAllOkW : GitEnv :=
  { repoPath := "/srv/games", repoURL := "https://example.com/games.git",
    username := "bot", token := "tok", remoteGetUrlOk := false }

def envDevinFailW : WorkerEnv :=
  { git := gitAllOkW, devinHttp := .error "Devin API returned status 500",
    createFolder := .ok "/srv/games/spec-2" }

/-- Environment whose spec lookup fails (no such spec row), the earliest
failure exit of the worker. -/
def envAnyW : WorkerEnv :=
  { git := gitAllOkW, devinHttp := .ok "devin-abc",
    createFolder := .ok "/srv/games/none" }

/-- Environment of a fully successful run, for the amended-C9 witness. -/
def envAllOkW : WorkerEnv :=
  { git := gitAllOkW, devinHttp := .ok "devin-xyz789",
    createFolder := .ok "/srv/games/spec-2" }

/-! ## Supporting lemmas -/

theorem insertGenJob_ok_of_fresh {db : DB} {row : GenSpecJobRow}
    (h : ∀ r ∈ db.genJobs, r.id ≠ row.id) :
    insertGenJob db row = .ok { db with genJobs := db.genJobs ++ [row] } := by
  unfold insertGenJob
  have hany : db.genJobs.any (fun r => r.id = row.id) = false := by
    rw [List.any_eq_false]
    intro r hr
    simpa using h r hr
  simp [hany]

theorem insertGameSpec_ok_of_fresh {db : DB} {row : GameSpecRow}
    (h : ∀ r ∈ db.specs, r.id ≠ row.id ∧ r.spec_hash ≠ row.spec_hash) :
    insertGameSpec db row = .ok { db with specs := db.specs ++ [row] } := by
  unfold insertGameSpec
  have hany : db.specs.any (fun r => r.id = row.id || r.spec_hash = row.spec_hash) = false := by
    rw [List.any_eq_false]
    intro r hr
    simp [decide_eq_true_eq, (h r hr).1, (h r hr).2]
  simp [hany]

theorem insertGameSpec_error_of_hash_clash {db : DB} {row : GameSpecRow}
    (r : GameSpecRow) (hr : r ∈ db.specs) (hh : r.spec_hash = row.spec_hash) :
    insertGameSpec db row =
      .error "duplicate key value violates unique constraint game_specs_spec_hash_key" := by
  unfold insertGameSpec
  have hany : db.specs.any (fun r => r.id = row.id || r.spec_hash = row.spec_hash) = true := by
    rw [List.any_eq_true]
    exact ⟨r, hr, by simp [hh]⟩
  simp [hany]

/-! ## C1: the duplicate short circuit -/

/-- C1.  Whenever the similarity search answers with a non-empty
candidate list whose first (highest-scored) candidate reaches the
threshold, `PostSpecJob` marks the `gen_spec_jobs` row DUPLICATE with
all candidate IDs and the top score, answers with the full candidate
list, inserts no `game_specs` row, and spawns no code job. -/
theorem spec_job_duplicate_short_circuit
    (db : DB) (req : CreateJobReq) (env : SpecJobEnv)
    (g : GenSpecOut) (c : Candidate) (rest : List Candidate)
    (hbrief : req.brief ≠ "")
    (hjob : ∀ r ∈ db.genJobs, r.id ≠ env.jobID)
    (hllm : env.llm = .ok g)
    (hsearch : env.search = .ok (c :: rest))
    (hscore : env.threshold ≤ c.score) :
    (PostSpecJob db req env).resp =
      .duplicate env.jobID
        ((c :: rest).map (fun it => ⟨it.spec_id, it.title, it.score⟩)) ∧
    (PostSpecJob db req env).db.specs = db.specs ∧
    (PostSpecJob db req env).spawned = none ∧
    ∃ j ∈ (PostSpecJob db req env).db.genJobs,
      j.id = env.jobID ∧ j.status = "DUPLICATE" ∧
      j.duplicate_of = (c :: rest).map (fun it => it.spec_id) ∧
      j.score_similarity = some c.score := by
  have hins := @insertGenJob_ok_of_fresh db
    { id := env.jobID, status := "QUEUED", brief := req.brief } hjob
  unfold PostSpecJob
  rw [if_neg hbrief, hins, hllm, hsearch]
  simp only []
  rw [if_pos hscore]
  unfold specJobDuplicatePhase updateGenJob
  refine ⟨rfl, rfl, rfl, ?_⟩
  refine ⟨{ id := env.jobID, status := "DUPLICATE", brief := req.brief,
            result_spec_id := none,
            duplicate_of := (c :: rest).map (fun it => it.spec_id),
            score_similarity := some c.score, error := none }, ?_, rfl, rfl, rfl, rfl⟩
  simp [List.mem_map, List.mem_append]

/-- Witness for C1 at a concrete input. -/
theorem spec_job_duplicate_short_circuit_witness :
    (PostSpecJob DB.empty { brief := "arcade 60s mobile puzzle game" } envDupW).resp =
      .duplicate "job-1" [⟨"X", "Dodge Run", 93 / 100⟩] ∧
    (PostSpecJob DB.empty { brief := "arcade 60s mobile puzzle game" } envDupW).db.specs = [] := by
  have h := spec_job_duplicate_short_circuit DB.empty
    { brief := "arcade 60s mobile puzzle game" } envDupW gW
    ⟨"X", "Dodge Run", 93 / 100⟩ []
    (by decide) (by intro r hr; simp [DB.empty] at hr) rfl rfl
    (by norm_num [SpecJobEnv.threshold, envDupW])
  exact ⟨h.1, by simpa [DB.empty] using h.2.1⟩

/-! ## C4: below-threshold insert with own-hash and `state = creating` -/

/-- A spec row whose state already equals the new state survives a
tracker transition unchanged (whether or not the read succeeds). -/
theorem applyStateUpdate_mem_same_state (db1 : DB) (specID st detail : String)
    (r : GameSpecRow) (hmem : r ∈ db1.specs) (hid : r.id = specID)
    (hst : r.state = st) :
    r ∈ (applyStateUpdate db1 specID st detail).specs := by
  unfold applyStateUpdate updateGameSpecState
  cases hfind : db1.specs.find? (fun x => x.id = specID) with
  | none => simpa using hmem
  | some cur =>
      simp only [List.mem_map]
      refine ⟨r, hmem, ?_⟩
      rw [if_pos (by simp [hid])]
      cases r
      simp only at hst
      simp [hst]

/-- The insert phase puts a row with `state = creating` and the digest
of its own `spec_json` into the store, whatever the upsert does. -/
theorem specJobInsertPhase_mem (db : DB) (req : CreateJobReq) (env : SpecJobEnv)
    (g : GenSpecOut)
    (hfresh : ∀ r ∈ db.specs, r.id ≠ env.specID ∧ r.spec_hash ≠ hashSpec g.spec_json) :
    ∃ row ∈ (specJobInsertPhase db req env g).db.specs,
      row.id = env.specID ∧ row.state = StateCreating ∧
      row.spec_json = g.spec_json ∧ row.spec_hash = hashSpec row.spec_json := by
  unfold specJobInsertPhase
  have hrow := @insertGameSpec_ok_of_fresh db
    { id := env.specID, title := g.title, brief := req.brief,
              spec_markdown := g.spec_markdown, spec_json := g.spec_json,
              spec_hash := hashSpec g.spec_json, genre := g.spec_json.get "genre",
              duration_sec := g.spec_json.get "duration_sec",
              state := StateCreating, devin_session_id := none,
              created_at := env.now }
    (fun r hr => ⟨(hfresh r hr).1, (hfresh r hr).2⟩)
  simp only [hrow]
  have hmem := applyStateUpdate_mem_same_state
    { db with specs := db.specs ++
        [{ id := env.specID, title := g.title, brief := req.brief,
           spec_markdown := g.spec_markdown, spec_json := g.spec_json,
           spec_hash := hashSpec g.spec_json, genre := g.spec_json.get "genre",
           duration_sec := g.spec_json.get "duration_sec",
           state := StateCreating, devin_session_id := none,
           created_at := env.now }] }
    env.specID StateCreating "Game spec created"
    { id := env.specID, title := g.title, brief := req.brief,
      spec_markdown := g.spec_markdown, spec_json := g.spec_json,
      spec_hash := hashSpec g.spec_json, genre := g.spec_json.get "genre",
      duration_sec := g.spec_json.get "duration_sec",
      state := StateCreating, devin_session_id := none,
      created_at := env.now }
    (by simp) rfl rfl
  cases hup : env.upsert with
  | error e =>
      simp only [hup]
      exact ⟨_, hmem, rfl, rfl, rfl, rfl⟩
  | ok u =>
      simp only [hup]
      exact ⟨_, by simpa [updateGenJob] using hmem, rfl, rfl, rfl, rfl⟩

/-- C4.  When the search finds nothing at or above the threshold, a
`game_specs` row is inserted whose `state` is `creating` and whose
`spec_hash` is the digest of its own `spec_json`; and `hashSpec` is a
function of the `spec_json` value alone, so hashing the same value
always yields the same hash. -/
theorem spec_insert_creating_own_hash
    (db : DB) (req : CreateJobReq) (env : SpecJobEnv)
    (g : GenSpecOut) (similar : List Candidate)
    (hbrief : req.brief ≠ "")
    (hjob : ∀ r ∈ db.genJobs, r.id ≠ env.jobID)
    (hllm : env.llm = .ok g)
    (hsearch : env.search = .ok similar)
    (hnodup : similar = [] ∨ ∃ c rest, similar = c :: rest ∧ c.score < env.threshold)
    (hfresh : ∀ r ∈ db.specs, r.id ≠ env.specID ∧ r.spec_hash ≠ hashSpec g.spec_json) :
    (∃ row ∈ (PostSpecJob db req env).db.specs,
        row.id = env.specID ∧ row.state = StateCreating ∧
        row.spec_json = g.spec_json ∧ row.spec_hash = hashSpec row.spec_json) ∧
    (∀ j₁ j₂ : GoMap, j₁ = j₂ → hashSpec j₁ = hashSpec j₂) := by
  refine ⟨?_, fun _ _ h => congrArg hashSpec h⟩
  have hins := @insertGenJob_ok_of_fresh db
    { id := env.jobID, status := "QUEUED", brief := req.brief } hjob
  unfold PostSpecJob
  rw [if_neg hbrief, hins, hllm, hsearch]
  simp only []
  rcases hnodup with hnil | ⟨c, rest, hcons, hlt⟩
  · subst hnil
    exact specJobInsertPhase_mem _ req env g hfresh
  · subst hcons
    simp only []
    rw [if_neg (fun hle => absurd hle (not_le.mpr hlt))]
    exact specJobInsertPhase_mem _ req env g hfresh

/-- Witness for C4 at a concrete input. -/
theorem spec_insert_creating_own_hash_witness :
    ∃ row ∈ (PostSpecJob DB.empty { brief := "arcade 60s mobile puzzle game" } envInsW).db.specs,
      row.id = "spec-2" ∧ row.state = StateCreating ∧
      row.spec_json = gW.spec_json ∧ row.spec_hash = hashSpec row.spec_json :=
  (spec_insert_creating_own_hash DB.empty { brief := "arcade 60s mobile puzzle game" }
    envInsW gW [] (by decide) (by intro r hr; simp [DB.empty] at hr) rfl rfl
    (Or.inl rfl) (by intro r hr; simp [DB.empty] at hr)).1

/-! ## C5: the unique `spec_hash` backstop

The store invariant over all states reachable through `CreateSpecJob`
and the work it detaches: `spec_hash` values are pairwise distinct and
each row's hash is the digest of its own `spec_json`. -/

theorem specsInv_empty : SpecsInv DB.empty := by
  constructor
  · simp [DB.empty]
  · intro r hr; simp [DB.empty] at hr

theorem specsInv_of_pairs_eq {db db' : DB}
    (h : db'.specs.map specPair = db.specs.map specPair)
    (hinv : SpecsInv db) : SpecsInv db' := by
  constructor
  · have h1 : db'.specs.map (fun r => r.spec_hash) =
        db.specs.map (fun r => r.spec_hash) := by
      have h2 := congrArg (List.map Prod.fst) h
      simpa [List.map_map, specPair, Function.comp] using h2
    rw [h1]
    exact hinv.1
  · intro r hr
    have hmem : specPair r ∈ db.specs.map specPair := by
      rw [← h]
      exact List.mem_map_of_mem _ hr
    obtain ⟨r0, hr0, hp⟩ := List.mem_map.mp hmem
    have h1 : r0.spec_hash = r.spec_hash := congrArg Prod.fst hp
    have h2 : r0.spec_json = r.spec_json := congrArg Prod.snd hp
    rw [← h1, ← h2]
    exact hinv.2 r0 hr0

theorem map_specPair_of_preserve {l : List GameSpecRow} {f : GameSpecRow → GameSpecRow}
    (hf : ∀ r, specPair (f r) = specPair r) :
    (l.map f).map specPair = l.map specPair := by
  rw [List.map_map]
  induction l with
  | nil => rfl
  | cons x xs ih => simp [ih, hf x, Function.comp]

theorem applyStateUpdate_specPairs (db : DB) (specID st detail : String) :
    (applyStateUpdate db specID st detail).specs.map specPair =
      db.specs.map specPair := by
  unfold applyStateUpdate updateGameSpecState
  cases hfind : db.specs.find? (fun r => r.id = specID) with
  | none => rfl
  | some cur =>
      simp only []
      apply map_specPair_of_preserve
      intro r
      by_cases h : r.id = specID <;> simp [specPair, h]

theorem setDevinSession_specPairs (db : DB) (specID sid : String) :
    (setDevinSession db specID sid).specs.map specPair = db.specs.map specPair := by
  unfold setDevinSession
  apply map_specPair_of_preserve
  intro r
  by_cases h : r.id = specID <;> simp [specPair, h]

theorem updateJobStatus_specs (db : DB) (jobID status : String) (progress : Nat)
    (logs : List String) (now : Nat) :
    (updateJobStatus db jobID status progress logs now).specs = db.specs := rfl

theorem updateGenJob_specs (db : DB) (jobID : String) (f : GenSpecJobRow → GenSpecJobRow) :
    (updateGenJob db jobID f).specs = db.specs := rfl

theorem insertGameSpec_ok_elim {db : DB} {row : GameSpecRow} {db' : DB}
    (h : insertGameSpec db row = .ok db') :
    db'.specs = db.specs ++ [row] ∧ ∀ r ∈ db.specs, r.spec_hash ≠ row.spec_hash := by
  unfold insertGameSpec at h
  split at h
  · cases h
  · next hguard =>
      injection h with h1
      constructor
      · rw [← h1]
      · intro r hr
        have hfalse : db.specs.any
            (fun r => r.id = row.id || r.spec_hash = row.spec_hash) = false := by
          rwa [Bool.not_eq_true] at hguard
        rw [List.any_eq_false] at hfalse
        have hx := hfalse r hr
        simp only [Bool.or_eq_true, decide_eq_true_eq] at hx
        push_neg at hx
        exact hx.2

theorem specsInv_insert {db : DB} {row : GameSpecRow} {db' : DB}
    (h : insertGameSpec db row = .ok db')
    (hrow : row.spec_hash = hashSpec row.spec_json)
    (hinv : SpecsInv db) : SpecsInv db' := by
  obtain ⟨hspecs, hfresh⟩ := insertGameSpec_ok_elim h
  constructor
  · rw [hspecs, List.map_append, List.pairwise_append]
    refine ⟨hinv.1, by simp, ?_⟩
    intro a ha b hb
    obtain ⟨ra, hra, hae⟩ := List.mem_map.mp ha
    simp only [List.map_cons, List.map_nil, List.mem_singleton] at hb
    rw [← hae, hb]
    exact hfresh ra hra
  · intro r hr
    rw [hspecs] at hr
    rcases List.mem_append.mp hr with h1 | h1
    · exact hinv.2 r h1
    · rw [List.mem_singleton.mp h1]
      exact hrow

theorem specsInv_of_specs_eq {db db' : DB} (h : db'.specs = db.specs)
    (hinv : SpecsInv db) : SpecsInv db' :=
  specsInv_of_pairs_eq (by rw [h]) hinv

theorem insertGenJob_ok_specs {db : DB} {row : GenSpecJobRow} {db' : DB}
    (h : insertGenJob db row = .ok db') : db'.specs = db.specs := by
  unfold insertGenJob at h
  split at h
  · cases h
  · injection h with h1
    rw [← h1]

theorem insertCodeJob_ok_specs {db : DB} {row : CodeJobRow} {db' : DB}
    (h : insertCodeJob db row = .ok db') : db'.specs = db.specs := by
  unfold insertCodeJob at h
  split at h
  · cases h
  · injection h with h1
    rw [← h1]

theorem specsInv_insertPhase (db : DB) (req : CreateJobReq) (env : SpecJobEnv)
    (g : GenSpecOut) (hinv : SpecsInv db) :
    SpecsInv (specJobInsertPhase db req env g).db := by
  simp only [specJobInsertPhase]
  split
  · exact hinv
  · next db1 hins =>
      have hinv1 : SpecsInv db1 := specsInv_insert hins rfl hinv
      have hinv2 : SpecsInv (applyStateUpdate db1 env.specID StateCreating
          "Game spec created") :=
        specsInv_of_pairs_eq (applyStateUpdate_specPairs db1 env.specID StateCreating _) hinv1
      split
      · exact hinv2
      · exact specsInv_of_specs_eq (updateGenJob_specs _ env.jobID _) hinv2

theorem specsInv_postSpecJob (db : DB) (req : CreateJobReq) (env : SpecJobEnv)
    (hinv : SpecsInv db) : SpecsInv (PostSpecJob db req env).db := by
  simp only [PostSpecJob]
  split
  · exact hinv
  · split
    · exact hinv
    · next db1 hgen =>
        have h1 : (updateGenJob db1 env.jobID
            (fun r => { r with status := "RUNNING" })).specs = db.specs := by
          rw [updateGenJob_specs, insertGenJob_ok_specs hgen]
        have hinv2 := specsInv_of_specs_eq h1 hinv
        split
        · exact hinv2
        · split
          · exact hinv2
          · split
            · split
              · exact specsInv_of_specs_eq (updateGenJob_specs _ env.jobID _) hinv2
              · exact specsInv_insertPhase _ req env _ hinv2
            · exact specsInv_insertPhase _ req env _ hinv2

theorem workerDevinPhase_specPairs (db4 : DB) (jobID specID : String)
    (env : WorkerEnv) (t : List JobUpdate) :
    (workerDevinPhase db4 jobID specID env t).1.specs.map specPair =
      db4.specs.map specPair := by
  unfold workerDevinPhase
  cases h : createDevinTask env <;>
    simp only [updateJobStatus_specs, applyStateUpdate_specPairs,
      setDevinSession_specPairs]

theorem workerPushPhase_specPairs (db3 : DB) (jobID specID : String)
    (env : WorkerEnv) (t : List JobUpdate) :
    (workerPushPhase db3 jobID specID env t).1.specs.map specPair =
      db3.specs.map specPair := by
  unfold workerPushPhase
  cases h : commitAndPush env.git <;>
    simp only [workerDevinPhase_specPairs, updateJobStatus_specs]

theorem workerFolderPhase_specPairs (db2 : DB) (jobID specID : String)
    (env : WorkerEnv) (t : List JobUpdate) :
    (workerFolderPhase db2 jobID specID env t).1.specs.map specPair =
      db2.specs.map specPair := by
  unfold workerFolderPhase
  cases h : env.createFolder <;>
    simp only [workerPushPhase_specPairs, updateJobStatus_specs]

theorem processCodeGeneration_specPairs (db : DB) (jobID : String)
    (req : CreateCodeJobReq) (env : WorkerEnv) :
    (processCodeGeneration db jobID req env).1.specs.map specPair =
      db.specs.map specPair := by
  unfold processCodeGeneration
  simp only [updateJobStatus_specs]
  cases hfind : db.specs.find? (fun r => r.id = req.gameSpecID) with
  | none => rfl
  | some spec =>
      split
      · rfl
      · split
        · rfl
        · simp only [workerFolderPhase_specPairs, updateJobStatus_specs]

theorem runAutoTrigger_specPairs (db : DB) (t : AutoTrigger) (repoPath : String)
    (now : Nat) :
    (runAutoTrigger db t repoPath now).1.specs.map specPair =
      db.specs.map specPair := by
  simp only [runAutoTrigger]
  split
  · next db2 heq =>
      rw [insertCodeJob_ok_specs heq]
      exact applyStateUpdate_specPairs db t.specID StateGitIniting _
  · exact applyStateUpdate_specPairs db t.specID StateGitIniting _

theorem postCodeJob_specPairs (db : DB) (req : CreateCodeJobReq) (env : CodeJobEnv) :
    (PostCodeJob db req env).1.specs.map specPair = db.specs.map specPair := by
  simp only [PostCodeJob]
  repeat' split
  all_goals try rfl
  all_goals
    rw [applyStateUpdate_specPairs]
    rename_i heq hpath
    rw [insertCodeJob_ok_specs heq]

/-- The spec-store invariant holds in every reachable state. -/
theorem specsInv_reachable {db : DB} (h : Reachable db) : SpecsInv db := by
  induction h with
  | empty => exact specsInv_empty
  | specJob req env _ ih => exact specsInv_postSpecJob _ req env ih
  | autoTrigger t rp now _ ih =>
      exact specsInv_of_pairs_eq (runAutoTrigger_specPairs _ t rp now) ih
  | worker jobID wreq env _ ih =>
      exact specsInv_of_pairs_eq (processCodeGeneration_specPairs _ jobID wreq env) ih
  | codeJob req env _ ih =>
      exact specsInv_of_pairs_eq (postCodeJob_specPairs _ req env) ih

theorem eq_of_pairwise_json {l : List GameSpecRow}
    (hp : l.Pairwise (fun a b => a.spec_json ≠ b.spec_json))
    {a b : GameSpecRow} (ha : a ∈ l) (hb : b ∈ l)
    (hj : a.spec_json = b.spec_json) : a = b := by
  induction l with
  | nil => cases ha
  | cons x xs ih =>
      cases hp with
      | cons hx hxs =>
          rcases List.mem_cons.mp ha with rfl | ha'
          · rcases List.mem_cons.mp hb with rfl | hb'
            · rfl
            · exact absurd hj (hx b hb')
          · rcases List.mem_cons.mp hb with rfl | hb'
            · exact absurd hj.symm (hx a ha')
            · exact ih hxs ha' hb'

theorem pairwise_json_of_inv {db : DB} (hinv : SpecsInv db) :
    db.specs.Pairwise (fun a b => a.spec_json ≠ b.spec_json) := by
  have hp := hinv.1
  rw [List.pairwise_map] at hp
  refine List.Pairwise.imp_of_mem ?_ hp
  intro a b ha hb hne hj
  exact hne (by rw [hinv.2 a ha, hinv.2 b hb, hj])

/-- When some stored row already carries the digest of the incoming
`spec_json`, the insert phase fails with the unique-hash violation and
changes nothing. -/
theorem specJobInsertPhase_conflict (db : DB) (req : CreateJobReq)
    (env : SpecJobEnv) (g : GenSpecOut) (r : GameSpecRow) (hr : r ∈ db.specs)
    (hhash : r.spec_hash = hashSpec g.spec_json) :
    specJobInsertPhase db req env g =
      ⟨db, .serverError
        "duplicate key value violates unique constraint game_specs_spec_hash_key",
       none⟩ := by
  unfold specJobInsertPhase
  have herr := @insertGameSpec_error_of_hash_clash db
    { id := env.specID, title := g.title, brief := req.brief,
              spec_markdown := g.spec_markdown, spec_json := g.spec_json,
              spec_hash := hashSpec g.spec_json, genre := g.spec_json.get "genre",
              duration_sec := g.spec_json.get "duration_sec",
              state := StateCreating, devin_session_id := none,
              created_at := env.now }
    r hr hhash
  simp only [herr]

/-- C5.  In every store state reachable through `CreateSpecJob` (and the
code-job work it detaches), no two `game_specs` rows carry the same
`spec_json`; and re-submitting a `spec_json` already stored — with the
similarity check passing or bypassed (no candidate at threshold) — fails
the insert on the unique `spec_hash` constraint (the `Conflict`,
HTTP 500), leaving the store unchanged with exactly one row holding that
`spec_json`. -/
theorem spec_hash_unique_backstop :
    (∀ db : DB, Reachable db →
      db.specs.Pairwise (fun a b => a.spec_json ≠ b.spec_json)) ∧
    (∀ (db : DB) (req : CreateJobReq) (env : SpecJobEnv) (g : GenSpecOut)
        (similar : List Candidate) (r : GameSpecRow),
      Reachable db → r ∈ db.specs →
      req.brief ≠ "" → (∀ q ∈ db.genJobs, q.id ≠ env.jobID) →
      env.llm = .ok g → g.spec_json = r.spec_json →
      env.search = .ok similar →
      (similar = [] ∨ ∃ c rest, similar = c :: rest ∧ c.score < env.threshold) →
      (PostSpecJob db req env).resp = .serverError
          "duplicate key value violates unique constraint game_specs_spec_hash_key" ∧
      (PostSpecJob db req env).db.specs = db.specs ∧
      ∃ u ∈ (PostSpecJob db req env).db.specs, u.spec_json = r.spec_json ∧
        ∀ v ∈ (PostSpecJob db req env).db.specs, v.spec_json = r.spec_json → v = u) := by
  constructor
  · intro db h
    exact pairwise_json_of_inv (specsInv_reachable h)
  · intro db req env g similar r hre hr hbrief hjob hllm hjson hsearch hnodup
    have hinv := specsInv_reachable hre
    have hpw := pairwise_json_of_inv hinv
    have hhash : r.spec_hash = hashSpec g.spec_json := by
      rw [hjson]
      exact hinv.2 r hr
    have hconf := specJobInsertPhase_conflict
      (updateGenJob
        { db with genJobs := db.genJobs ++
            [{ id := env.jobID, status := "QUEUED", brief := req.brief }] }
        env.jobID (fun q => { q with status := "RUNNING" }))
      req env g r hr hhash
    unfold PostSpecJob
    rw [if_neg hbrief,
      @insertGenJob_ok_of_fresh db
        { id := env.jobID, status := "QUEUED", brief := req.brief } hjob,
      hllm, hsearch]
    simp only []
    rcases hnodup with hnil | ⟨c, rest, hcons, hlt⟩
    · subst hnil
      rw [hconf]
      exact ⟨rfl, rfl,
        ⟨r, hr, rfl, fun v hv hvj => eq_of_pairwise_json hpw hv hr hvj⟩⟩
    · subst hcons
      simp only []
      rw [if_neg (fun hle => absurd hle (not_le.mpr hlt)), hconf]
      exact ⟨rfl, rfl,
        ⟨r, hr, rfl, fun v hv hvj => eq_of_pairwise_json hpw hv hr hvj⟩⟩

/-- Witness for C5 at a concrete input: the identical `spec_json`
submitted twice with an empty similarity result fails the second insert
and leaves the single stored row in place. -/
theorem spec_hash_unique_backstop_witness :
    (PostSpecJob dbOneSpec { brief := "arcade 60s mobile puzzle game" } envConfW).resp =
      .serverError
        "duplicate key value violates unique constraint game_specs_spec_hash_key" ∧
    (PostSpecJob dbOneSpec { brief := "arcade 60s mobile puzzle game" } envConfW).db.specs =
      dbOneSpec.specs := by
  have hreach : Reachable dbOneSpec :=
    Reachable.specJob { brief := "arcade 60s mobile puzzle game" } envInsW Reachable.empty
  have hspecs : dbOneSpec.specs = [rowW] := rfl
  have hr : rowW ∈ dbOneSpec.specs := by
    rw [hspecs]
    exact List.mem_singleton.mpr rfl
  have hgen : dbOneSpec.genJobs =
      [{ id := "job-2", status := "COMPLETED", brief := "arcade 60s mobile puzzle game",
         result_spec_id := some "spec-2", duplicate_of := [],
         score_similarity := none, error := none }] := rfl
  have h := (spec_hash_unique_backstop).2 dbOneSpec
    { brief := "arcade 60s mobile puzzle game" } envConfW gW [] rowW
    hreach hr (by decide)
    (by
      intro q hq
      rw [hgen] at hq
      rw [List.mem_singleton.mp hq]
      decide)
    rfl rfl rfl (Or.inl rfl)
  exact ⟨h.1, h.2.1⟩

/-! ## C6: the tracker does not validate transitions -/

/-- C6.  For any stored spec and **any** string `newState` — including
strings outside the five pipeline labels — `Transition`
(`updateGameSpecState`) succeeds: it overwrites the row's `state` with
`newState` and appends exactly one `game_spec_states` record whose
`state_before` is the state read just before the write and whose
`state_after` is `newState`.  No edge-set validation occurs anywhere in
the definition. -/
theorem transition_unvalidated (db : DB) (specID newState detail : String)
    (r : GameSpecRow)
    (hfind : db.specs.find? (fun x => x.id = specID) = some r) :
    updateGameSpecState db specID newState detail =
      .ok { db with
              specs := db.specs.map (fun s =>
                if s.id = specID then { s with state := newState } else s),
              specStates := db.specStates ++
                [⟨specID, some r.state, newState, detail⟩] } := by
  unfold updateGameSpecState
  rw [hfind]

/-- Witness for C6 at a concrete input, with a `newState` far outside
the five known labels. -/
theorem transition_unvalidated_witness :
    updateGameSpecState dbOneSpec "spec-2" "totally-bogus-state" "free text" =
      .ok { dbOneSpec with
              specs := dbOneSpec.specs.map (fun s =>
                if s.id = "spec-2" then { s with state := "totally-bogus-state" } else s),
              specStates := dbOneSpec.specStates ++
                [⟨"spec-2", some rowW.state, "totally-bogus-state", "free text"⟩] } :=
  transition_unvalidated dbOneSpec "spec-2" "totally-bogus-state" "free text" rowW rfl

/-! ## C7: latest code job by `created_at` -/

/-- The fold behind `ORDER BY created_at DESC LIMIT 1`. -/
theorem latestByCreatedAt_aux (jobs : List CodeJobRow) :
    ∀ (acc : Option CodeJobRow) (j : CodeJobRow),
      jobs.foldl (fun acc j =>
        match acc with
        | none => some j
        | some b => if b.created_at < j.created_at then some j else acc) acc = some j →
      (acc = some j ∨ j ∈ jobs) ∧
      (∀ k ∈ jobs, k.created_at ≤ j.created_at) ∧
      (∀ b, acc = some b → b.created_at ≤ j.created_at) := by
  induction jobs with
  | nil =>
      intro acc j h
      simp only [List.foldl_nil] at h
      refine ⟨Or.inl h, ?_, ?_⟩
      · intro k hk; cases hk
      · intro b hb
        rw [hb] at h
        injection h with h1
        rw [h1]
  | cons x xs ih =>
      intro acc j h
      simp only [List.foldl_cons] at h
      obtain ⟨hsrc, hall, haccle⟩ := ih _ j h
      have hstep : ∀ b, acc = some b →
          (b.created_at < x.created_at ∧ x.created_at ≤ j.created_at) ∨
          (¬ b.created_at < x.created_at ∧ b.created_at ≤ j.created_at) := by
        intro b hb
        subst hb
        by_cases hlt : b.created_at < x.created_at
        · left
          refine ⟨hlt, haccle x ?_⟩
          show (if b.created_at < x.created_at then some x else some b) = some x
          rw [if_pos hlt]
        · right
          refine ⟨hlt, haccle b ?_⟩
          show (if b.created_at < x.created_at then some x else some b) = some b
          rw [if_neg hlt]
      refine ⟨?_, ?_, ?_⟩
      · rcases hsrc with hs | hs
        · cases acc with
          | none =>
              injection hs with h1
              exact Or.inr (h1 ▸ List.mem_cons_self x xs)
          | some b =>
              have hs' : (if b.created_at < x.created_at then some x else some b)
                  = some j := hs
              by_cases hlt : b.created_at < x.created_at
              · rw [if_pos hlt] at hs'
                injection hs' with h1
                exact Or.inr (h1 ▸ List.mem_cons_self x xs)
              · rw [if_neg hlt] at hs'
                exact Or.inl hs'
        · exact Or.inr (List.mem_cons_of_mem x hs)
      · intro k hk
        rcases List.mem_cons.mp hk with rfl | hk'
        · cases acc with
          | none => exact haccle k rfl
          | some b =>
              rcases hstep b rfl with ⟨hlt, hle⟩ | ⟨hlt, hle⟩
              · exact hle
              · exact le_trans (le_of_not_lt hlt) hle
        · exact hall k hk'
      · intro b hb
        cases acc with
        | none => cases hb
        | some b0 =>
            injection hb with h1
            rw [← h1]
            rcases hstep b0 rfl with ⟨hlt, hle⟩ | ⟨hlt, hle⟩
            · exact le_trans (le_of_lt hlt) hle
            · exact hle

theorem latestByCreatedAt_some {jobs : List CodeJobRow} {j : CodeJobRow}
    (h : latestByCreatedAt jobs = some j) :
    j ∈ jobs ∧ ∀ k ∈ jobs, k.created_at ≤ j.created_at := by
  obtain ⟨hsrc, hall, _⟩ := latestByCreatedAt_aux jobs none j h
  rcases hsrc with hs | hs
  · cases hs
  · exact ⟨hs, hall⟩

theorem latestByCreatedAt_none {jobs : List CodeJobRow}
    (h : latestByCreatedAt jobs = none) : jobs = [] := by
  cases jobs with
  | nil => rfl
  | cons x xs =>
      exfalso
      have hne : ∀ (ys : List CodeJobRow) (b : CodeJobRow),
          ys.foldl (fun acc j =>
            match acc with
            | none => some j
            | some b => if b.created_at < j.created_at then some j else acc)
            (some b) ≠ none := by
        intro ys
        induction ys with
        | nil => intro b hnone; cases hnone
        | cons y ys ihy =>
            intro b hnone
            simp only [List.foldl_cons] at hnone
            by_cases hlt : b.created_at < y.created_at
            · rw [if_pos hlt] at hnone
              exact ihy y hnone
            · rw [if_neg hlt] at hnone
              exact ihy b hnone
      exact hne xs x h

/-- C7.  `GetLatestCodeJobForSpec` answers with a job of that spec whose
`created_at` is maximal among the spec's jobs, and with the
`not_started` sentinel exactly when the spec has no jobs. -/
theorem latest_code_job_for_spec (db : DB) (specID : String)
    (hne : specID ≠ "") :
    (∀ j : CodeJobRow, GetCodeJobBySpecID db specID = .found j →
      j ∈ db.codeJobs ∧ j.game_spec_id = specID ∧
      ∀ k ∈ db.codeJobs, k.game_spec_id = specID →
        k.created_at ≤ j.created_at) ∧
    (GetCodeJobBySpecID db specID = .notStarted ↔
      db.codeJobs.filter (fun k => k.game_spec_id = specID) = []) := by
  unfold GetCodeJobBySpecID
  rw [if_neg hne]
  constructor
  · intro j hj
    cases hlat : latestByCreatedAt
        (db.codeJobs.filter (fun k => k.game_spec_id = specID)) with
    | none => rw [hlat] at hj; cases hj
    | some j0 =>
        rw [hlat] at hj
        injection hj with h1
        subst h1
        obtain ⟨hmem, hall⟩ := latestByCreatedAt_some hlat
        have hmem' := List.mem_filter.mp hmem
        refine ⟨hmem'.1, by simpa using hmem'.2, ?_⟩
        intro k hk hkid
        exact hall k (List.mem_filter.mpr ⟨hk, by simpa using hkid⟩)
  · cases hlat : latestByCreatedAt
        (db.codeJobs.filter (fun k => k.game_spec_id = specID)) with
    | none =>
        exact ⟨fun _ => latestByCreatedAt_none hlat, fun _ => rfl⟩
    | some j0 =>
        constructor
        · intro hcontra
          have h2 : CodeJobLookup.found j0 = .notStarted := hcontra
          cases h2
        · intro hfil
          rw [hfil] at hlat
          cases hlat

/-- Witness for C7 at a concrete input: the tick-5 job wins, and a spec
with no jobs gets the sentinel. -/
theorem latest_code_job_for_spec_witness :
    (cjRow "cj-b" "spec-9" 5 ∈ dbManyJobs.codeJobs ∧
      (cjRow "cj-b" "spec-9" 5).game_spec_id = "spec-9" ∧
      ∀ k ∈ dbManyJobs.codeJobs, k.game_spec_id = "spec-9" →
        k.created_at ≤ (cjRow "cj-b" "spec-9" 5).created_at) ∧
    GetCodeJobBySpecID dbManyJobs "spec-none" = .notStarted := by
  constructor
  · exact (latest_code_job_for_spec dbManyJobs "spec-9" (by decide)).1
      (cjRow "cj-b" "spec-9" 5) rfl
  · exact (latest_code_job_for_spec dbManyJobs "spec-none" (by decide)).2.mpr rfl

/-! ## C8: each status update replaces the whole logs array -/

theorem updateJobStatus_fields (db : DB) (jobID status : String) (progress : Nat)
    (logs : List String) (now : Nat) :
    ∀ j ∈ (updateJobStatus db jobID status progress logs now).codeJobs,
      j.id = jobID → j.status = status ∧ j.progress = progress ∧ j.logs = logs := by
  intro j hj hid
  unfold updateJobStatus at hj
  simp only [List.mem_map] at hj
  obtain ⟨r, hr, hmap⟩ := hj
  by_cases h : r.id = jobID
  · rw [← hmap, if_pos h]
    exact ⟨rfl, rfl, rfl⟩
  · rw [← hmap, if_neg h] at hid
    exact absurd hid h

/-- C8.  After any sequence of `updateJobStatus` calls against a job,
the job's `logs` equal exactly the list passed at the **last** call —
each update overwrites the whole array; nothing from earlier updates or
from the row's prior contents survives. -/
theorem logs_replaced_by_last_update (db : DB) (jobID : String)
    (us : List (String × Nat × List String × Nat)) (hus : us ≠ []) :
    ∀ j ∈ (applyJobUpdates db jobID us).codeJobs, j.id = jobID →
      j.logs = (us.getLast hus).2.2.1 := by
  induction us generalizing db with
  | nil => exact absurd rfl hus
  | cons u us' ih =>
      cases us' with
      | nil =>
          intro j hj hid
          exact (updateJobStatus_fields db jobID u.1 u.2.1 u.2.2.1 u.2.2.2
            j hj hid).2.2
      | cons v vs =>
          intro j hj hid
          have h := ih (updateJobStatus db jobID u.1 u.2.1 u.2.2.1 u.2.2.2)
            (by simp) j hj hid
          rwa [List.getLast_cons (by simp)]

/-- Witness for C8 at a concrete input: two successive updates leave
only the second snapshot, not a union with the first or with the row's
prior lines. -/
theorem logs_replaced_by_last_update_witness :
    ({ id := "cj-1", game_spec_id := "spec-2", game_spec := [],
       output_path := "/tmp", status := "completed", progress := 100,
       artifact_url := none, error := none, logs := ["final snapshot"],
       created_at := 1, updated_at := 3 } : CodeJobRow) ∈
      (applyJobUpdates dbJobWithLogs "cj-1"
        [("processing", 60, ["mid snapshot"], 2),
         ("completed", 100, ["final snapshot"], 3)]).codeJobs ∧
    ({ id := "cj-1", game_spec_id := "spec-2", game_spec := [],
       output_path := "/tmp", status := "completed", progress := 100,
       artifact_url := none, error := none, logs := ["final snapshot"],
       created_at := 1, updated_at := 3 } : CodeJobRow).logs = ["final snapshot"] := by
  constructor
  · exact List.mem_singleton.mpr rfl
  · exact logs_replaced_by_last_update dbJobWithLogs "cj-1"
      [("processing", 60, ["mid snapshot"], 2), ("completed", 100, ["final snapshot"], 3)]
      (by simp) _ (List.mem_singleton.mpr rfl) rfl

/-! ## C10: `POST /code-jobs` validation -/

theorem insertCodeJob_ok_of_fresh {db : DB} {row : CodeJobRow}
    (h : ∀ r ∈ db.codeJobs, r.id ≠ row.id) :
    insertCodeJob db row = .ok { db with codeJobs := db.codeJobs ++ [row] } := by
  unfold insertCodeJob
  have hany : db.codeJobs.any (fun r => r.id = row.id) = false := by
    rw [List.any_eq_false]
    intro r hr
    simpa using h r hr
  simp [hany]

theorem applyStateUpdate_codeJobs (db : DB) (specID st d : String) :
    (applyStateUpdate db specID st d).codeJobs = db.codeJobs := by
  unfold applyStateUpdate updateGameSpecState
  cases hfind : db.specs.find? (fun r => r.id = specID) <;> rfl

/-- C10.  `PostCodeJob` answers `InvalidInput` (HTTP 400, nothing
inserted) exactly when both `game_spec_id` and the inline `game_spec`
are empty; any other request — in particular one carrying only an
inline `game_spec` — is accepted: a `queued` row is inserted with
progress 0, and `output_path` defaults to `/tmp` when omitted. -/
theorem post_code_job_validation (db : DB) (req : CreateCodeJobReq)
    (env : CodeJobEnv)
    (hfresh : ∀ r ∈ db.codeJobs, r.id ≠ env.jobID) :
    ((∃ msg, (PostCodeJob db req env).2.1 = .invalidInput msg) ↔
      (req.gameSpecID = "" ∧ req.gameSpec.length = 0)) ∧
    ((req.gameSpecID = "" ∧ req.gameSpec.length = 0) →
      (PostCodeJob db req env).1 = db) ∧
    (¬(req.gameSpecID = "" ∧ req.gameSpec.length = 0) →
      (PostCodeJob db req env).2.1 = .queued env.jobID ∧
      ∃ row ∈ (PostCodeJob db req env).1.codeJobs,
        row.id = env.jobID ∧ row.status = "queued" ∧ row.progress = 0 ∧
        row.output_path =
          (if req.outputPath = "" then "/tmp" else req.outputPath)) := by
  by_cases hval : req.gameSpecID = "" ∧ req.gameSpec.length = 0
  · unfold PostCodeJob
    rw [if_pos hval]
    exact ⟨⟨fun _ => hval, fun _ => ⟨_, rfl⟩⟩, fun _ => rfl,
      fun hcon => absurd hval hcon⟩
  · have hrow : ∀ p : String,
        insertCodeJob db
          { id := env.jobID, game_spec_id := req.gameSpecID,
            game_spec := req.gameSpec, output_path := p, status := "queued",
            progress := 0, artifact_url := none, error := none, logs := [],
            created_at := env.now, updated_at := env.now } =
          .ok { db with codeJobs := db.codeJobs ++
            [{ id := env.jobID, game_spec_id := req.gameSpecID,
               game_spec := req.gameSpec, output_path := p, status := "queued",
               progress := 0, artifact_url := none, error := none, logs := [],
               created_at := env.now, updated_at := env.now }] } :=
      fun p => insertCodeJob_ok_of_fresh (fun r hr => hfresh r hr)
    unfold PostCodeJob
    rw [if_neg hval]
    by_cases hout : req.outputPath = ""
    · rw [if_pos hout]
      dsimp only []
      rw [hrow "/tmp"]
      dsimp only []
      refine ⟨⟨?_, ?_⟩, ?_, ?_⟩
      · intro hex
        obtain ⟨msg, hmsg⟩ := hex
        cases hmsg
      · intro hcon
        exact absurd hcon hval
      · intro hcon
        exact absurd hcon hval
      · intro _
        refine ⟨rfl, ?_⟩
        refine ⟨{ id := env.jobID, game_spec_id := req.gameSpecID,
                  game_spec := req.gameSpec, output_path := "/tmp",
                  status := "queued", progress := 0, artifact_url := none,
                  error := none, logs := [], created_at := env.now,
                  updated_at := env.now }, ?_, rfl, rfl, rfl, by rw [if_pos hout]⟩
        rw [applyStateUpdate_codeJobs]
        simp
    · rw [if_neg hout]
      dsimp only []
      rw [hrow req.outputPath]
      dsimp only []
      refine ⟨⟨?_, ?_⟩, ?_, ?_⟩
      · intro hex
        obtain ⟨msg, hmsg⟩ := hex
        cases hmsg
      · intro hcon
        exact absurd hcon hval
      · intro hcon
        exact absurd hcon hval
      · intro _
        refine ⟨rfl, ?_⟩
        refine ⟨{ id := env.jobID, game_spec_id := req.gameSpecID,
                  game_spec := req.gameSpec, output_path := req.outputPath,
                  status := "queued", progress := 0, artifact_url := none,
                  error := none, logs := [], created_at := env.now,
                  updated_at := env.now }, ?_, rfl, rfl, rfl, by rw [if_neg hout]⟩
        rw [applyStateUpdate_codeJobs]
        simp

/-- Witness for C10 at concrete inputs: an inline-only request is
accepted with the defaulted output path. -/
theorem post_code_job_validation_witness :
    ¬("" = "" ∧ ([("genre", Json.str "arcade")] : GoMap).length = 0) ∧
    (PostCodeJob DB.empty
      { gameSpecID := "", gameSpec := [("genre", Json.str "arcade")] }
      { jobID := "cj-9" }).2.1 = .queued "cj-9" := by
  have hval : ¬("" = "" ∧ ([("genre", Json.str "arcade")] : GoMap).length = 0) := by
    simp
  refine ⟨hval, ?_⟩
  exact ((post_code_job_validation DB.empty
    { gameSpecID := "", gameSpec := [("genre", Json.str "arcade")] }
    { jobID := "cj-9" }
    (by intro r hr; simp [DB.empty] at hr)).2.2 hval).1

/-! ## Worker-run lemmas (C2, C3, C9) -/

theorem find?_map_id {l : List GameSpecRow} {specID : String}
    {f : GameSpecRow → GameSpecRow} (hf : ∀ r, (f r).id = r.id) :
    (l.map f).find? (fun r => r.id = specID) =
      (l.find? (fun r => r.id = specID)).map f := by
  induction l with
  | nil => rfl
  | cons x xs ih =>
      by_cases h : x.id = specID
      · rw [List.map_cons, List.find?_cons_of_pos _ (by simp [hf x, h]),
          List.find?_cons_of_pos _ (by simp [h])]
        rfl
      · rw [List.map_cons, List.find?_cons_of_neg _ (by simp [hf x, h]),
          List.find?_cons_of_neg _ (by simp [h])]
        exact ih

theorem applyStateUpdate_find_some {db : DB} {specID : String} {cur : GameSpecRow}
    (st d : String)
    (hfind : db.specs.find? (fun r => r.id = specID) = some cur) :
    (applyStateUpdate db specID st d).specs.find? (fun r => r.id = specID) =
      some { cur with state := st } := by
  have hcur : cur.id = specID := by
    have h := List.find?_some hfind
    simpa using h
  unfold applyStateUpdate updateGameSpecState
  rw [hfind]
  dsimp only []
  rw [find?_map_id (fun r => by by_cases h : r.id = specID <;> simp [h]), hfind]
  dsimp only [Option.map]
  rw [if_pos hcur]

theorem applyStateUpdate_mem_state {db : DB} {specID : String} {cur : GameSpecRow}
    (st d : String)
    (hfind : db.specs.find? (fun r => r.id = specID) = some cur) :
    ∀ r ∈ (applyStateUpdate db specID st d).specs, r.id = specID →
      r.state = st := by
  unfold applyStateUpdate updateGameSpecState
  rw [hfind]
  dsimp only []
  intro r hr hid
  obtain ⟨r0, hr0, hmap⟩ := List.mem_map.mp hr
  by_cases h : r0.id = specID
  · rw [← hmap, if_pos h]
  · rw [← hmap, if_neg h] at hid
    exact absurd hid h

/-! ## C2: push failure fails the job (amended) -/

/-- All three push attempts fail after a successful local commit:
`CommitAndPush` reports the push error. -/
theorem commitAndPush_push_failure {g : GitEnv}
    (hpull : pullFromRemote g = .ok ())
    (hadd : g.addOk = true) (hcommit : g.commitOk = true)
    (hpm : g.pushMainOk = false) (hpma : g.pushMasterOk = false)
    (hpu : g.pushUpstreamOk = false) :
    commitAndPush g = .error "failed to push to remote" := by
  unfold commitAndPush
  rw [hpull]
  simp [hadd, hcommit, hpm, hpma, hpu]

/-- C2 (amended).  In the current worker, when the spec row exists, the
git driver is configured, the folder is created, and `CommitAndPush`
fails — in particular when the local commit succeeds but all three push
attempts fail — the job is marked **failed** at progress 0 with the
`Failed to commit and push` error as its only log line.  (The
completed-with-warning behavior of the claim exists only in a
superseded variant of this handler.) -/
theorem push_failure_marks_job_failed
    (db : DB) (jobID : String) (req : CreateCodeJobReq) (env : WorkerEnv)
    (spec : GameSpecRow) (p : String)
    (hfind : db.specs.find? (fun r => r.id = req.gameSpecID) = some spec)
    (hcfg : env.git.isConfigured = true)
    (hfolder : env.createFolder = .ok p)
    (hpull : pullFromRemote env.git = .ok ())
    (hadd : env.git.addOk = true) (hcommit : env.git.commitOk = true)
    (hpm : env.git.pushMainOk = false) (hpma : env.git.pushMasterOk = false)
    (hpu : env.git.pushUpstreamOk = false) :
    (processCodeGeneration db jobID req env).2 =
      [u20, u40, u60, u80,
       uFail 0 "Failed to commit and push: failed to push to remote"] ∧
    ∀ j ∈ (processCodeGeneration db jobID req env).1.codeJobs, j.id = jobID →
      j.status = "failed" ∧ j.progress = 0 ∧
      j.logs = ["Failed to commit and push: failed to push to remote"] := by
  have hpush := commitAndPush_push_failure hpull hadd hcommit hpm hpma hpu
  have hcfg' : (!env.git.isConfigured) = false := by rw [hcfg]; rfl
  unfold processCodeGeneration workerFolderPhase workerPushPhase
  simp only [updateJobStatus_specs]
  rw [hfind]
  dsimp only []
  rw [hcfg', if_neg Bool.false_ne_true, hfolder]
  dsimp only []
  rw [hpush]
  dsimp only []
  refine ⟨rfl, ?_⟩
  intro j hj hid
  exact updateJobStatus_fields _ jobID "failed" 0
    ["Failed to commit and push: failed to push to remote"] env.now j hj hid

/-- Counterexample to C2 as stated: with the commit succeeding and all
three push attempts failing, the current worker's terminal write is
`failed` (progress 0), not `completed` with a warning. -/
theorem push_failure_completed_claim_cex :
    gitPushFailW.commitOk = true ∧
    gitPushFailW.pushMainOk = false ∧ gitPushFailW.pushMasterOk = false ∧
    gitPushFailW.pushUpstreamOk = false ∧
    (processCodeGeneration dbWorkerW "cj-1" reqWorkerW envPushFailW).2.getLast? =
      some (uFail 0 "Failed to commit and push: failed to push to remote") ∧
    (uFail 0 "Failed to commit and push: failed to push to remote").status ≠
      "completed" :=
  ⟨rfl, rfl, rfl, rfl, rfl, by decide⟩

/-- Witness for the amended C2 at a concrete input. -/
theorem push_failure_marks_job_failed_witness :
    (processCodeGeneration dbWorkerW "cj-1" reqWorkerW envPushFailW).2 =
      [u20, u40, u60, u80,
       uFail 0 "Failed to commit and push: failed to push to remote"] ∧
    ({ cjRow "cj-1" "spec-2" 1 with
        status := "failed", progress := 0,
        logs := ["Failed to commit and push: failed to push to remote"],
        updated_at := 0 } : CodeJobRow).status = "failed" ∧
    ({ cjRow "cj-1" "spec-2" 1 with
        status := "failed", progress := 0,
        logs := ["Failed to commit and push: failed to push to remote"],
        updated_at := 0 } : CodeJobRow).progress = 0 := by
  have h := push_failure_marks_job_failed dbWorkerW "cj-1" reqWorkerW envPushFailW
    rowW "/srv/games/spec-2" rfl rfl rfl rfl rfl rfl rfl rfl rfl
  refine ⟨h.1, ?_⟩
  have h2 := h.2
    { cjRow "cj-1" "spec-2" 1 with
        status := "failed", progress := 0,
        logs := ["Failed to commit and push: failed to push to remote"],
        updated_at := 0 }
    (by exact List.mem_singleton.mpr rfl) rfl
  exact ⟨h2.1, h2.2.1⟩

/-! ## C3: Devin delegation failure freezes the job at 85 -/

/-- The Devin phase under a failing `CreateDevinTask`: terminal write
`failed` at 85, spec state left at `code_generating`. -/
theorem workerDevinPhase_devinFail (db4 : DB) (jobID specID : String)
    (env : WorkerEnv) (t : List JobUpdate) (cur : GameSpecRow) (e : String)
    (hfind : db4.specs.find? (fun r => r.id = specID) = some cur)
    (hdevin : createDevinTask env = .error e) :
    (workerDevinPhase db4 jobID specID env t).2 =
      (t ++ [u85]) ++ [uFail 85 ("Failed to create Devin task: " ++ e)] ∧
    (∀ j ∈ (workerDevinPhase db4 jobID specID env t).1.codeJobs, j.id = jobID →
      j.status = "failed" ∧ j.progress = 85) ∧
    (∀ r ∈ (workerDevinPhase db4 jobID specID env t).1.specs, r.id = specID →
      r.state = StateCodeGenerating) := by
  unfold workerDevinPhase
  rw [hdevin]
  dsimp only []
  refine ⟨rfl, ?_, ?_⟩
  · intro j hj hid
    have h2 := updateJobStatus_fields _ jobID "failed" 85
      ["Failed to create Devin task: " ++ e] env.now j hj hid
    exact ⟨h2.1, h2.2.1⟩
  · intro r hr hid
    have hf1 : (updateJobStatus (applyStateUpdate db4 specID StateGitInited
          "Git repository initialized and README.md pushed") jobID "processing" 85
          ["Git operations completed, starting Devin code generation"]
          env.now).specs.find? (fun r => r.id = specID) =
        some { cur with state := StateGitInited } :=
      applyStateUpdate_find_some StateGitInited
        "Git repository initialized and README.md pushed" hfind
    have hr' : r ∈ (applyStateUpdate (updateJobStatus (applyStateUpdate db4 specID
          StateGitInited "Git repository initialized and README.md pushed") jobID
          "processing" 85 ["Git operations completed, starting Devin code generation"]
          env.now) specID StateCodeGenerating "Starting Devin code generation").specs :=
      hr
    exact applyStateUpdate_mem_state StateCodeGenerating
      "Starting Devin code generation" hf1 r hr' hid

/-- C3.  When git operations succeed but `CreateDevinTask` fails, the
job's terminal write is `failed` at progress 85, and the spec row's
persisted `state` remains `code_generating` — the two earlier state
advances are not rolled back. -/
theorem devin_failure_frozen
    (db : DB) (jobID : String) (req : CreateCodeJobReq) (env : WorkerEnv)
    (spec : GameSpecRow) (p e : String)
    (hfind : db.specs.find? (fun r => r.id = req.gameSpecID) = some spec)
    (hcfg : env.git.isConfigured = true)
    (hfolder : env.createFolder = .ok p)
    (hpush : commitAndPush env.git = .ok ())
    (hdevin : createDevinTask env = .error e) :
    (processCodeGeneration db jobID req env).2 =
      [u20, u40, u60, u80, u85,
       uFail 85 ("Failed to create Devin task: " ++ e)] ∧
    (∀ j ∈ (processCodeGeneration db jobID req env).1.codeJobs, j.id = jobID →
      j.status = "failed" ∧ j.progress = 85) ∧
    (∀ r ∈ (processCodeGeneration db jobID req env).1.specs,
      r.id = req.gameSpecID → r.state = StateCodeGenerating) := by
  have hcfg' : (!env.git.isConfigured) = false := by rw [hcfg]; rfl
  unfold processCodeGeneration workerFolderPhase workerPushPhase
  simp only [updateJobStatus_specs]
  rw [hfind]
  dsimp only []
  rw [hcfg', if_neg Bool.false_ne_true, hfolder]
  dsimp only []
  rw [hpush]
  dsimp only []
  have h := workerDevinPhase_devinFail
    (updateJobStatus (updateJobStatus (updateJobStatus (updateJobStatus db jobID
        "processing" 20 ["Starting automated git folder generation"] env.now) jobID
        "processing" 40 ["Game spec retrieved successfully"] env.now) jobID
        "processing" 60 ["Creating game folder with README.md"] env.now) jobID
        "processing" 80 ["Committing and pushing to repository"] env.now)
    jobID req.gameSpecID env
    ([⟨"processing", 20, ["Starting automated git folder generation"]⟩] ++
      [⟨"processing", 40, ["Game spec retrieved successfully"]⟩] ++
      [⟨"processing", 60, ["Creating game folder with README.md"]⟩] ++
      [⟨"processing", 80, ["Committing and pushing to repository"]⟩])
    spec e hfind hdevin
  exact ⟨h.1, h.2.1, h.2.2⟩

/-- Witness for C3 at a concrete input. -/
theorem devin_failure_frozen_witness :
    (processCodeGeneration dbWorkerW "cj-1" reqWorkerW envDevinFailW).2 =
      [u20, u40, u60, u80, u85,
       uFail 85 "Failed to create Devin task: Devin API returned status 500"] ∧
    ({ rowW with state := StateCodeGenerating } : GameSpecRow).state =
      StateCodeGenerating ∧
    ({ cjRow "cj-1" "spec-2" 1 with
        status := "failed", progress := 85,
        logs := ["Failed to create Devin task: Devin API returned status 500"],
        updated_at := 0 } : CodeJobRow).status = "failed" ∧
    ({ cjRow "cj-1" "spec-2" 1 with
        status := "failed", progress := 85,
        logs := ["Failed to create Devin task: Devin API returned status 500"],
        updated_at := 0 } : CodeJobRow).progress = 85 := by
  have h := devin_failure_frozen dbWorkerW "cj-1" reqWorkerW envDevinFailW rowW
    "/srv/games/spec-2" "Devin API returned status 500" rfl rfl rfl rfl rfl
  have hs : ({ rowW with state := StateCodeGenerating } : GameSpecRow) ∈
      (processCodeGeneration dbWorkerW "cj-1" reqWorkerW envDevinFailW).1.specs := by
    have he : (processCodeGeneration dbWorkerW "cj-1" reqWorkerW envDevinFailW).1.specs =
        [{ rowW with state := StateCodeGenerating }] := rfl
    rw [he]
    exact List.mem_singleton.mpr rfl
  have hc : ({ cjRow "cj-1" "spec-2" 1 with
        status := "failed", progress := 85,
        logs := ["Failed to create Devin task: Devin API returned status 500"],
        updated_at := 0 } : CodeJobRow) ∈
      (processCodeGeneration dbWorkerW "cj-1" reqWorkerW envDevinFailW).1.codeJobs := by
    have he : (processCodeGeneration dbWorkerW "cj-1" reqWorkerW
          envDevinFailW).1.codeJobs =
        [{ cjRow "cj-1" "spec-2" 1 with
            status := "failed", progress := 85,
            logs := ["Failed to create Devin task: Devin API returned status 500"],
            updated_at := 0 }] := rfl
    rw [he]
    exact List.mem_singleton.mpr rfl
  exact ⟨h.1, h.2.2 _ hs rfl, (h.2.1 _ hc rfl).1, (h.2.1 _ hc rfl).2⟩

/-! ## C9: progress over a worker run (amended) -/

/-- Trace of the Devin phase: either the Devin failure exit or the
completed exit. -/
theorem workerDevinPhase_trace (db4 : DB) (jobID specID : String)
    (env : WorkerEnv) (t : List JobUpdate) :
    (∃ e, (workerDevinPhase db4 jobID specID env t).2 =
      t ++ [u85] ++ [uFail 85 ("Failed to create Devin task: " ++ e)]) ∨
    (∃ s, (workerDevinPhase db4 jobID specID env t).2 =
      t ++ [u85] ++ [u90 s] ++ [u100 s]) := by
  unfold workerDevinPhase
  cases h : createDevinTask env with
  | error e => exact Or.inl ⟨e, rfl⟩
  | ok s => exact Or.inr ⟨s, rfl⟩

/-- Trace of the push phase: the push-failure exit or a Devin-phase
trace. -/
theorem workerPushPhase_trace (db3 : DB) (jobID specID : String)
    (env : WorkerEnv) (t : List JobUpdate) :
    (∃ e, (workerPushPhase db3 jobID specID env t).2 =
      t ++ [u80] ++ [uFail 0 ("Failed to commit and push: " ++ e)]) ∨
    (∃ e, (workerPushPhase db3 jobID specID env t).2 =
      t ++ [u80] ++ [u85] ++ [uFail 85 ("Failed to create Devin task: " ++ e)]) ∨
    (∃ s, (workerPushPhase db3 jobID specID env t).2 =
      t ++ [u80] ++ [u85] ++ [u90 s] ++ [u100 s]) := by
  unfold workerPushPhase
  cases h : commitAndPush env.git with
  | error e => exact Or.inl ⟨e, rfl⟩
  | ok u =>
      rcases workerDevinPhase_trace
          (updateJobStatus db3 jobID "processing" 80
            ["Committing and pushing to repository"] env.now)
          jobID specID env (t ++ [u80]) with ⟨e, he⟩ | ⟨s, hs⟩
      · exact Or.inr (Or.inl ⟨e, he⟩)
      · exact Or.inr (Or.inr ⟨s, hs⟩)

/-- Trace of the folder phase: the folder-failure exit or a push-phase
trace. -/
theorem workerFolderPhase_trace (db2 : DB) (jobID specID : String)
    (env : WorkerEnv) (t : List JobUpdate) :
    (∃ e, (workerFolderPhase db2 jobID specID env t).2 =
      t ++ [u60] ++ [uFail 0 ("Failed to create game folder: " ++ e)]) ∨
    (∃ e, (workerFolderPhase db2 jobID specID env t).2 =
      t ++ [u60] ++ [u80] ++ [uFail 0 ("Failed to commit and push: " ++ e)]) ∨
    (∃ e, (workerFolderPhase db2 jobID specID env t).2 =
      t ++ [u60] ++ [u80] ++ [u85] ++
        [uFail 85 ("Failed to create Devin task: " ++ e)]) ∨
    (∃ s, (workerFolderPhase db2 jobID specID env t).2 =
      t ++ [u60] ++ [u80] ++ [u85] ++ [u90 s] ++ [u100 s]) := by
  unfold workerFolderPhase
  cases h : env.createFolder with
  | error e => exact Or.inl ⟨e, rfl⟩
  | ok p =>
      rcases workerPushPhase_trace
          (updateJobStatus db2 jobID "processing" 60
            ["Creating game folder with README.md"] env.now)
          jobID specID env (t ++ [u60]) with ⟨e, he⟩ | ⟨e, he⟩ | ⟨s, hs⟩
      · exact Or.inr (Or.inl ⟨e, he⟩)
      · exact Or.inr (Or.inr (Or.inl ⟨e, he⟩))
      · exact Or.inr (Or.inr (Or.inr ⟨s, hs⟩))

/-- The complete case split of a worker run's `updateJobStatus` trace:
one trace per exit point of `processCodeGeneration`. -/
theorem worker_traces (db : DB) (jobID : String) (req : CreateCodeJobReq)
    (env : WorkerEnv) :
    (processCodeGeneration db jobID req env).2 =
      [u20, uFail 0 "Failed to retrieve game spec: no rows in result set"] ∨
    (processCodeGeneration db jobID req env).2 =
      [u20, u40, uFail 0 "Git repository not configured"] ∨
    (∃ e, (processCodeGeneration db jobID req env).2 =
      [u20, u40, u60, uFail 0 ("Failed to create game folder: " ++ e)]) ∨
    (∃ e, (processCodeGeneration db jobID req env).2 =
      [u20, u40, u60, u80, uFail 0 ("Failed to commit and push: " ++ e)]) ∨
    (∃ e, (processCodeGeneration db jobID req env).2 =
      [u20, u40, u60, u80, u85, uFail 85 ("Failed to create Devin task: " ++ e)]) ∨
    (∃ s, (processCodeGeneration db jobID req env).2 =
      [u20, u40, u60, u80, u85, u90 s, u100 s]) := by
  unfold processCodeGeneration
  simp only [updateJobStatus_specs]
  cases hfind : db.specs.find? (fun r => r.id = req.gameSpecID) with
  | none => exact Or.inl rfl
  | some spec =>
      cases hcfg : env.git.isConfigured with
      | false => exact Or.inr (Or.inl rfl)
      | true =>
          rcases workerFolderPhase_trace
              (updateJobStatus (updateJobStatus db jobID "processing" 20
                  ["Starting automated git folder generation"] env.now) jobID
                "processing" 40 ["Game spec retrieved successfully"] env.now)
              jobID req.gameSpecID env ([u20] ++ [u40]) with
            ⟨e, he⟩ | ⟨e, he⟩ | ⟨e, he⟩ | ⟨s, hs⟩
          · exact Or.inr (Or.inr (Or.inl ⟨e, he⟩))
          · exact Or.inr (Or.inr (Or.inr (Or.inl ⟨e, he⟩)))
          · exact Or.inr (Or.inr (Or.inr (Or.inr (Or.inl ⟨e, he⟩))))
          · exact Or.inr (Or.inr (Or.inr (Or.inr (Or.inr ⟨s, hs⟩))))

/-- C9 (amended).  Every worker run ends with a terminal write of
status `completed` or `failed`; on a run that ends `completed` the
progress values written are exactly the non-decreasing checkpoint
sequence 20, 40, 60, 80, 85, 90, 100.  (Runs that fail before the Devin
step write progress 0 in their terminal `failed` update, which is lower
than the checkpoints already written, so the progress sequence of a
failing run need not be non-decreasing — see the counterexample.) -/
theorem worker_progress_terminal_amended (db : DB) (jobID : String)
    (req : CreateCodeJobReq) (env : WorkerEnv) :
    ∃ u, (processCodeGeneration db jobID req env).2.getLast? = some u ∧
      (u.status = "completed" ∨ u.status = "failed") ∧
      (u.status = "completed" →
        (processCodeGeneration db jobID req env).2.map (fun x => x.progress) =
          [20, 40, 60, 80, 85, 90, 100] ∧
        List.Pairwise (· ≤ ·)
          ((processCodeGeneration db jobID req env).2.map (fun x => x.progress))) := by
  rcases worker_traces db jobID req env with h | h | ⟨e, h⟩ | ⟨e, h⟩ | ⟨e, h⟩ | ⟨s, h⟩ <;>
    rw [h]
  · exact ⟨_, rfl, Or.inr rfl,
      fun habs => absurd (show ("failed" : String) = "completed" from habs)
        (by decide)⟩
  · exact ⟨_, rfl, Or.inr rfl,
      fun habs => absurd (show ("failed" : String) = "completed" from habs)
        (by decide)⟩
  · exact ⟨uFail 0 ("Failed to create game folder: " ++ e), rfl, Or.inr rfl,
      fun habs => absurd (show ("failed" : String) = "completed" from habs)
        (by decide)⟩
  · exact ⟨uFail 0 ("Failed to commit and push: " ++ e), rfl, Or.inr rfl,
      fun habs => absurd (show ("failed" : String) = "completed" from habs)
        (by decide)⟩
  · exact ⟨uFail 85 ("Failed to create Devin task: " ++ e), rfl, Or.inr rfl,
      fun habs => absurd (show ("failed" : String) = "completed" from habs)
        (by decide)⟩
  · exact ⟨u100 s, rfl, Or.inl rfl,
      fun _ => ⟨rfl,
        show List.Pairwise (· ≤ ·) [20, 40, 60, 80, 85, 90, 100] from by decide⟩⟩

/-- Counterexample to C9 as stated: a worker run whose spec fetch fails
writes progress 20 and then 0 — a strictly decreasing pair, so the
sequence of progress values over the job's lifetime is not monotonically
non-decreasing. -/
theorem worker_progress_not_monotone_cex :
    (processCodeGeneration DB.empty "cj-1"
        { gameSpecID := "spec-missing", gameSpec := [], outputPath := "/tmp" }
        envAnyW).2.map (fun x => x.progress) = [20, 0] ∧
    ¬ List.Pairwise (· ≤ ·)
      ((processCodeGeneration DB.empty "cj-1"
          { gameSpecID := "spec-missing", gameSpec := [], outputPath := "/tmp" }
          envAnyW).2.map (fun x => x.progress)) := by
  constructor
  · rfl
  · exact show ¬ List.Pairwise (· ≤ ·) [20, 0] from by decide

/-- Witness for the amended C9 at a concrete input (a run that ends
`completed`). -/
theorem worker_progress_terminal_amended_witness :
    ∃ u, (processCodeGeneration dbWorkerW "cj-1" reqWorkerW envAllOkW).2.getLast? =
        some u ∧
      (u.status = "completed" ∨ u.status = "failed") ∧
      (u.status = "completed" →
        (processCodeGeneration dbWorkerW "cj-1" reqWorkerW envAllOkW).2.map
            (fun x => x.progress) = [20, 40, 60, 80, 85, 90, 100] ∧
        List.Pairwise (· ≤ ·)
          ((processCodeGeneration dbWorkerW "cj-1" reqWorkerW envAllOkW).2.map
            (fun x => x.progress))) :=
  worker_progress_terminal_amended dbWorkerW "cj-1" reqWorkerW envAllOkW

end GameGen
